import Mathlib

/-!
Verification development for the shoyu.nvim snippet renderer (Rust).

Shallow embedding conventions:
* Rust `&str` values are modelled at the UTF-8 byte level as `List ℕ`
  (each entry one byte, 0–255), produced from Lean `String`s by `utf8Bytes`.
  This is necessary because the hex-color parser slices strings by bytes and
  can panic on non-character boundaries.
* A Rust function that can panic is modelled with an `Option` layer
  (`none` = panic); a function returning `Result` additionally carries an
  `Except String` layer.
* `f32` arithmetic is modelled exactly over `ℚ`; the `as u8` / `as u32`
  casts are truncation toward zero with saturation, as in Rust float-to-int
  casts.
-/

/-- UTF-8 encoding of one Unicode scalar value, byte by byte
(model of how Rust stores a `char` inside a `str`). -/
def utf8EncodeCharBytes (c : Char) : List ℕ :=
  let n := c.toNat
  if n < 0x80 then [n]
  else if n < 0x800 then
    [0xC0 + n / 64, 0x80 + n % 64]
  else if n < 0x10000 then
    [0xE0 + n / 4096, 0x80 + (n / 64) % 64, 0x80 + n % 64]
  else
    [0xF0 + n / 262144, 0x80 + (n / 4096) % 64, 0x80 + (n / 64) % 64, 0x80 + n % 64]

/-- The UTF-8 byte sequence of a Lean string; this is the byte-level view of
the corresponding Rust `&str`. -/
def utf8Bytes (s : String) : List ℕ :=
  s.data.flatMap utf8EncodeCharBytes

/-- `str::trim_start_matches('#')`: drops every leading `'#'` (byte 35),
not just one. -/
def trimStartHash : List ℕ → List ℕ
  | 35 :: rest => trimStartHash rest
  | bs => bs

/-- Whether byte `b` is an ASCII hexadecimal digit (`0-9`, `a-f`, `A-F`). -/
def isHexDigitByte (b : ℕ) : Bool :=
  (48 ≤ b && b ≤ 57) || (97 ≤ b && b ≤ 102) || (65 ≤ b && b ≤ 70)

/-- Numeric value of an ASCII hex digit byte. -/
def hexDigitVal (b : ℕ) : ℕ :=
  if 48 ≤ b && b ≤ 57 then b - 48
  else if 97 ≤ b && b ≤ 102 then b - 87
  else b - 55

/-- Digit loop of `u8::from_str_radix(_, 16)`: accumulate hex digits with the
`checked_mul`/`checked_add` overflow test against the `u8` range. -/
def u8Radix16Digits : List ℕ → ℕ → Option ℕ
  | [], acc => some acc
  | b :: rest, acc =>
    if isHexDigitByte b then
      let v := acc * 16 + hexDigitVal b
      if v ≤ 255 then u8Radix16Digits rest v else none
    else none

/-- `u8::from_str_radix(s, 16)` over the byte view of `s`: an optional
leading `'+'` (43) followed by at least one hex digit.  For unsigned types
Rust strips only `'+'`; a leading `'-'` is left in place and fails the
digit loop as an invalid digit (so `"-0"` is an error, unlike for signed
types). -/
def u8_from_str_radix_16 (bs : List ℕ) : Option ℕ :=
  match bs with
  | [] => none
  | b :: rest =>
    if b = 43 then
      match rest with
      | [] => none
      | _ => u8Radix16Digits rest 0
    else u8Radix16Digits (b :: rest) 0

/-- Rust `str::is_char_boundary` for an index strictly inside the byte list:
true iff the byte at that index is not a UTF-8 continuation byte. -/
def isCharBoundary (bs : List ℕ) (i : ℕ) : Bool :=
  if i = 0 then true
  else
    match bs.drop i with
    | [] => decide (i = bs.length)
    | b :: _ => !(128 ≤ b && b < 192)

/-- Byte slicing `&s[lo..hi]`: panics (`none`) unless both ends are character
boundaries; otherwise yields the bytes in the range. -/
def strSlice (bs : List ℕ) (lo hi : ℕ) : Option (List ℕ) :=
  if isCharBoundary bs lo && isCharBoundary bs hi then
    some ((bs.drop lo).take (hi - lo))
  else
    none

/-- `hex_to_rgb` from `themes.rs`, over the byte view of the input string.
The outer `Option` models a Rust panic (byte slicing at a non-character
boundary); the `Except` is the function's own `Result`.  Evaluation order
follows the source: strip leading `'#'`s, length test, then slice and parse
red, green, blue in turn. -/
def hex_to_rgb (s : List ℕ) : Option (Except String (ℕ × ℕ × ℕ)) :=
  let hex := trimStartHash s
  if hex.length ≠ 6 then some (.error "Invalid hex color format")
  else
    match strSlice hex 0 2 with
    | none => none
    | some rb =>
      match u8_from_str_radix_16 rb with
      | none => some (.error "Invalid red component")
      | some r =>
        match strSlice hex 2 4 with
        | none => none
        | some gb =>
          match u8_from_str_radix_16 gb with
          | none => some (.error "Invalid green component")
          | some g =>
            match strSlice hex 4 6 with
            | none => none
            | some bb =>
              match u8_from_str_radix_16 bb with
              | none => some (.error "Invalid blue component")
              | some b => some (.ok (r, g, b))

/-- ASCII lowercasing of a byte (the canonicalisation used to compare
hex strings case-insensitively). -/
def lowerByte (b : ℕ) : ℕ :=
  if 65 ≤ b && b ≤ 90 then b + 32 else b

/-- A hex-digit value rendered as a lowercase ASCII hex digit byte. -/
def hexCharByte (d : ℕ) : ℕ :=
  if d < 10 then 48 + d else 87 + d

/-- An RGB triple re-formatted as 6 lowercase hex digit bytes
(the re-formatting direction of the round-trip property). -/
def rgb_to_hex_lower (v : ℕ × ℕ × ℕ) : List ℕ :=
  [hexCharByte (v.1 / 16), hexCharByte (v.1 % 16),
   hexCharByte (v.2.1 / 16), hexCharByte (v.2.1 % 16),
   hexCharByte (v.2.2 / 16), hexCharByte (v.2.2 % 16)]

/-- The success domain claimed for hex parsing (spec-side predicate,
stated from the claim's words): exactly 6 hexadecimal digits after
stripping a single leading `'#'`. -/
def claimSixHexAfterOneHash (s : List ℕ) : Bool :=
  let h := match s with
    | 35 :: rest => rest
    | _ => s
  decide (h.length = 6) && h.all isHexDigitByte

/-- A theme color as stored by the renderer: the raw hex string plus the
parsed RGB triple. -/
structure ThemeColor where
  hex : String
  rgb : ℕ × ℕ × ℕ
  deriving Repr, DecidableEq

/-- `ThemeColor::new` from `themes.rs`: parse the hex string, falling back to
`(255, 255, 255)` on a parse error (`unwrap_or`).  The `Option` layer models
the panic `hex_to_rgb` can raise on byte slicing at a non-character boundary,
which `unwrap_or` does not catch. -/
def ThemeColor.new (hex : String) : Option ThemeColor :=
  match hex_to_rgb (utf8Bytes hex) with
  | none => none
  | some (.ok v) => some { hex := hex, rgb := v }
  | some (.error _) => some { hex := hex, rgb := (255, 255, 255) }

/-- A syntax theme: a named mapping from semantic roles to colors
(fields in source order; Rust field `class` kept via a quoted name). -/
structure Theme where
  name : String
  background : ThemeColor
  foreground : ThemeColor
  comment : ThemeColor
  keyword : ThemeColor
  string : ThemeColor
  number : ThemeColor
  function : ThemeColor
  type_color : ThemeColor
  «variable» : ThemeColor
  operator : ThemeColor
  punctuation : ThemeColor
  constant : ThemeColor
  «class» : ThemeColor
  deriving Repr, DecidableEq

/-- Builds a theme from its 13 hex strings, threading the (unreachable)
panic of `ThemeColor::new`; each `xxx_theme()` constructor in `themes.rs`
is one application of this with its literal colors. -/
def mkThemeOpt (name bg fg cm kw st nb fn tc vb op pt ct cl : String) : Option Theme := do
  let background ← ThemeColor.new bg
  let foreground ← ThemeColor.new fg
  let comment ← ThemeColor.new cm
  let keyword ← ThemeColor.new kw
  let string ← ThemeColor.new st
  let number ← ThemeColor.new nb
  let function ← ThemeColor.new fn
  let type_color ← ThemeColor.new tc
  let variable_color ← ThemeColor.new vb
  let operator ← ThemeColor.new op
  let punctuation ← ThemeColor.new pt
  let constant ← ThemeColor.new ct
  let class_color ← ThemeColor.new cl
  pure { name := name, background := background, foreground := foreground,
         comment := comment, keyword := keyword, string := string, number := number,
         function := function, type_color := type_color, «variable» := variable_color,
         operator := operator, punctuation := punctuation, constant := constant,
         «class» := class_color }

/-- `dracula_theme()` from `themes.rs`. -/
def dracula_theme : Option Theme :=
  mkThemeOpt "Dracula" "#282a36" "#f8f8f2" "#6272a4" "#ff79c6" "#f1fa8c" "#bd93f9"
    "#50fa7b" "#8be9fd" "#f8f8f2" "#ff79c6" "#f8f8f2" "#bd93f9" "#8be9fd"

/-- `monokai_theme()` from `themes.rs`. -/
def monokai_theme : Option Theme :=
  mkThemeOpt "Monokai" "#272822" "#f8f8f2" "#75715e" "#f92672" "#e6db74" "#ae81ff"
    "#a6e22e" "#66d9ef" "#f8f8f2" "#f92672" "#f8f8f2" "#ae81ff" "#a6e22e"

/-- `github_theme()` from `themes.rs`. -/
def github_theme : Option Theme :=
  mkThemeOpt "GitHub" "#ffffff" "#24292e" "#6a737d" "#d73a49" "#032f62" "#005cc5"
    "#6f42c1" "#005cc5" "#24292e" "#d73a49" "#24292e" "#005cc5" "#6f42c1"

/-- `nord_theme()` from `themes.rs`. -/
def nord_theme : Option Theme :=
  mkThemeOpt "Nord" "#2e3440" "#d8dee9" "#616e88" "#81a1c1" "#a3be8c" "#b48ead"
    "#88c0d0" "#81a1c1" "#d8dee9" "#81a1c1" "#eceff4" "#b48ead" "#8fbcbb"

/-- `solarized_dark_theme()` from `themes.rs`. -/
def solarized_dark_theme : Option Theme :=
  mkThemeOpt "Solarized Dark" "#002b36" "#839496" "#586e75" "#859900" "#2aa198"
    "#d33682" "#268bd2" "#b58900" "#839496" "#859900" "#93a1a1" "#cb4b16" "#b58900"

/-- `solarized_light_theme()` from `themes.rs`. -/
def solarized_light_theme : Option Theme :=
  mkThemeOpt "Solarized Light" "#fdf6e3" "#657b83" "#93a1a1" "#859900" "#2aa198"
    "#d33682" "#268bd2" "#b58900" "#657b83" "#859900" "#586e75" "#cb4b16" "#b58900"

/-- `one_dark_theme()` from `themes.rs`. -/
def one_dark_theme : Option Theme :=
  mkThemeOpt "One Dark" "#282c34" "#abb2bf" "#5c6370" "#c678dd" "#98c379" "#d19a66"
    "#61afef" "#e06c75" "#abb2bf" "#c678dd" "#abb2bf" "#d19a66" "#e5c07b"

/-- `gruvbox_theme()` from `themes.rs`. -/
def gruvbox_theme : Option Theme :=
  mkThemeOpt "Gruvbox" "#282828" "#ebdbb2" "#928374" "#fb4934" "#b8bb26" "#d3869b"
    "#fabd2f" "#fe8019" "#ebdbb2" "#fb4934" "#ebdbb2" "#d3869b" "#8ec07c"

/-- ASCII lowercasing of one character. -/
def asciiLowerChar (c : Char) : Char :=
  if 65 ≤ c.toNat ∧ c.toNat ≤ 90 then Char.ofNat (c.toNat + 32) else c

/-- ASCII-level lowercasing, exact for ASCII strings such as the catalog
names and the concrete inputs used below.  Rust's `str::to_lowercase`
performs full Unicode case mapping backed by the Unicode tables (e.g.
U+212A KELVIN SIGN lowercases to `k`), which is treated as an external
capability: `get_theme_with` takes the lowercasing function as a
parameter, and the catalog theorem below is quantified over it, so nothing
proved about the lookup depends on this ASCII model. -/
def rustToLowercase (s : String) : String :=
  String.mk (s.data.map asciiLowerChar)

/-- `get_theme` from `themes.rs`, with the `str::to_lowercase` capability
passed in as `to_lowercase`.  The `Option` merges the source's
`Option<Theme>` with the (provably unreachable) panic of theme
construction. -/
def get_theme_with (to_lowercase : String → String) (name : String) :
    Option Theme :=
  match to_lowercase name with
  | "dracula" => dracula_theme
  | "monokai" => monokai_theme
  | "github" => github_theme
  | "nord" => nord_theme
  | "solarized-dark" => solarized_dark_theme
  | "solarized-light" => solarized_light_theme
  | "one-dark" => one_dark_theme
  | "gruvbox" => gruvbox_theme
  | _ => none

/-- `get_theme` instantiated with the ASCII lowercasing model (adequate for
the ASCII scenario inputs used in this file; the catalog theorem itself is
stated for every lowercasing function). -/
def get_theme (name : String) : Option Theme :=
  get_theme_with rustToLowercase name

/-- `get_theme_names` from `themes.rs`: the fixed theme catalog. -/
def get_theme_names : List String :=
  ["dracula", "monokai", "github", "nord", "solarized-dark", "solarized-light",
   "one-dark", "gruvbox"]

/-- Rust `f32 as u32` cast on the rational model: truncation toward zero,
saturating at the `u32` range. -/
def rustCastU32 (q : ℚ) : ℕ :=
  if q ≤ 0 then 0 else min ⌊q⌋.toNat (2 ^ 32 - 1)

/-- Rust `f32 as u8` cast: truncation toward zero, saturating at `[0, 255]`. -/
def rustCastU8 (q : ℚ) : ℕ :=
  if q ≤ 0 then 0 else min ⌊q⌋.toNat 255

/-- Rust `f32 as i32` cast: truncation toward zero, saturating at the
`i32` range. -/
def rustCastI32 (q : ℚ) : ℤ :=
  if q ≤ 0 then max ⌈q⌉ (-(2 ^ 31)) else min ⌊q⌋ (2 ^ 31 - 1)

/-- Rust `i32 as u32` cast: wraps modulo `2^32`. -/
def i32AsU32 (i : ℤ) : ℕ :=
  (i % 2 ^ 32).toNat

/-- Rust `f32::clamp(lo, hi)`. -/
def clampQ (q lo hi : ℚ) : ℚ :=
  max lo (min q hi)

/-- `RenderConfig` from `config.rs` (field for field; `f32` fields become
rationals). -/
structure RenderConfig where
  width : ℕ
  height : Option ℕ
  padding : ℕ
  line_height : ℚ
  font_size : ℚ
  font_family : String
  background_color : String
  window_controls : Bool
  window_title : Option String
  line_numbers : Bool
  drop_shadow : Bool
  border_radius : ℚ
  export_size : ℚ
  panel_padding : ℕ
  gradient_backdrop : Bool
  noise_effect : Bool

/-- `RenderConfig::default()` from `config.rs`. -/
def render_config_default : RenderConfig where
  width := 1200
  height := none
  padding := 64
  line_height := 5 / 4
  font_size := 18
  font_family := "Fira Code"
  background_color := "#1e1e1e"
  window_controls := true
  window_title := none
  line_numbers := false
  drop_shadow := true
  border_radius := 8
  export_size := 2
  panel_padding := 80
  gradient_backdrop := true
  noise_effect := true

/-- `RenderConfig::get_actual_width`. -/
def RenderConfig.get_actual_width (c : RenderConfig) : ℕ :=
  rustCastU32 (c.width * c.export_size)

/-- `RenderConfig::get_actual_height`. -/
def RenderConfig.get_actual_height (c : RenderConfig) (total_height : ℕ) : ℕ :=
  rustCastU32 ((c.height.getD total_height) * c.export_size)

/-- `RenderConfig::get_scaled_padding`. -/
def RenderConfig.get_scaled_padding (c : RenderConfig) : ℕ :=
  rustCastU32 (c.padding * c.export_size)

/-- `RenderConfig::get_scaled_font_size`. -/
def RenderConfig.get_scaled_font_size (c : RenderConfig) : ℚ :=
  c.font_size * c.export_size

/-- `RenderConfig::get_scaled_panel_padding`. -/
def RenderConfig.get_scaled_panel_padding (c : RenderConfig) : ℕ :=
  rustCastU32 (c.panel_padding * c.export_size)

/-- A rasterized glyph (`GlyphInfo` from `font.rs`): coverage bitmap (row
major, values 0–255), dimensions, advance and bearings. -/
structure GlyphInfo where
  data : List ℕ
  width : ℕ
  height : ℕ
  advance_width : ℚ
  bearing_x : ℤ
  bearing_y : ℤ

/-- Model of `FontManager` from `font.rs`: the fontdue rasterizer is an
external capability, so the per-character `render_glyph` result and the
`get_line_height` value are the model's parameters. -/
structure FontManager where
  render_glyph : Char → GlyphInfo
  get_line_height : ℕ

/-- `HighlightedToken` from `syntax.rs`. -/
structure HighlightedToken where
  text : String
  color : ThemeColor

/-- `HighlightedLine` from `syntax.rs`. -/
structure HighlightedLine where
  tokens : List HighlightedToken

/-- `SnippetRenderer` from `renderer.rs`; the syntect-backed
`SyntaxHighlighter` is modelled as its (pure) `highlight_code` function. -/
structure SnippetRenderer where
  theme : Theme
  config : RenderConfig
  highlighter : String → String → Theme → List HighlightedLine
  font_manager : FontManager

/-- `SnippetRenderer::new`: theme lookup first (an unknown name is an error
before any drawing), then the font load result (`load_font_with_fallback`
performs file I/O, so its outcome is a parameter). -/
def snippet_renderer_new_with (to_lowercase : String → String)
    (theme_name : String) (config : RenderConfig)
    (font_load : Except String FontManager)
    (highlighter : String → String → Theme → List HighlightedLine) :
    Except String SnippetRenderer :=
  match get_theme_with to_lowercase theme_name with
  | none => .error ("Unknown theme: " ++ theme_name)
  | some theme =>
    match font_load with
    | .error e => .error e
    | .ok fm =>
      .ok { theme := theme, config := config, highlighter := highlighter,
            font_manager := fm }

/-- `SnippetRenderer::new` instantiated with the ASCII lowercasing model. -/
def snippet_renderer_new (theme_name : String) (config : RenderConfig)
    (font_load : Except String FontManager)
    (highlighter : String → String → Theme → List HighlightedLine) :
    Except String SnippetRenderer :=
  snippet_renderer_new_with rustToLowercase theme_name config font_load highlighter

/-- Content-area height from `render_snippet` (unscaled): line count times
line height, or one line height for empty content.  The source computes
`line_count * line_height` in `u32`, which wraps modulo 2^32 in release
builds (and panics on overflow in debug builds); the wrap is modelled
explicitly.  Both arguments are themselves `u32` values (< 2^32), so only
the product needs reduction. -/
def content_height_calc (line_count line_height : ℕ) : ℕ :=
  if 0 < line_count then (line_count * line_height) % 2 ^ 32 else line_height

/-- Panel height from `render_snippet` (unscaled): content height plus twice
the padding plus the window-controls height (40 when enabled, else 0).  All
three `u32` operations — `padding * 2` and the two left-associated
additions — wrap modulo 2^32 (release semantics; debug builds panic on
overflow). -/
def panel_height_calc (line_count line_height padding : ℕ)
    (window_controls : Bool) : ℕ :=
  ((content_height_calc line_count line_height + (padding * 2) % 2 ^ 32) % 2 ^ 32 +
    (if window_controls then 40 else 0)) % 2 ^ 32

/-- The gutter text drawn before a line's tokens when line numbers are
enabled: `format!("{:3} ", line_index + 1)`, i.e. the decimal number
right-aligned and space-padded to a minimum width of 3, followed by one
space. -/
def gutter_string (line_index : ℕ) : String :=
  let s := toString (line_index + 1)
  String.mk (List.replicate (3 - s.length) ' ') ++ s ++ " "

/-- Spec-side string from the claim's words: the zero-padded 3-digit decimal
representation of a number. -/
def zeroPad3 (n : ℕ) : String :=
  let s := toString n
  String.mk (List.replicate (3 - s.length) '0') ++ s

/-- An RGBA pixel (channel values 0–255). -/
structure Rgba where
  r : ℕ
  g : ℕ
  b : ℕ
  a : ℕ
  deriving Repr, DecidableEq

/-- The RGBA image surface (`image::RgbaImage`): dimensions plus the pixel
field.  `pix` is total over `ℤ × ℤ`; only in-bounds entries are ever
written, matching `put_pixel`'s precondition. -/
structure Img where
  width : ℕ
  height : ℕ
  pix : ℤ → ℤ → Rgba

/-- `put_pixel`: point update of the pixel field. -/
def Img.put (img : Img) (x y : ℤ) (c : Rgba) : Img :=
  { img with pix := fun u v => if u = x ∧ v = y then c else img.pix u v }

/-- `blend_alpha_pixel` from `font.rs`: coverage-alpha compositing of the
foreground color over the background pixel; coverage 255 and 0 short
circuit, any intermediate coverage linearly interpolates each channel and
forces the output alpha to 255. -/
def blend_alpha_pixel (background foreground : Rgba) (alpha : ℕ) : Rgba :=
  if alpha = 255 then foreground
  else if alpha = 0 then background
  else
    let alpha_f : ℚ := alpha / 255
    let inv_alpha : ℚ := 1 - alpha_f
    { r := rustCastU8 (foreground.r * alpha_f + background.r * inv_alpha),
      g := rustCastU8 (foreground.g * alpha_f + background.g * inv_alpha),
      b := rustCastU8 (foreground.b * alpha_f + background.b * inv_alpha),
      a := 255 }

/-- The sample loop of `blend_glyph`: iterate the flat coverage bitmap with
running index `i`; samples with coverage 0 are skipped, destinations are
`(glyph_x + i % width, glyph_y + i / width)`, out-of-bounds destinations
are skipped, and every remaining destination is composited with
`blend_alpha_pixel`. -/
def blend_glyph_go (color : Rgba) (gx gy : ℤ) (w : ℕ) :
    Img → List ℕ → ℕ → Img
  | img, [], _ => img
  | img, alpha :: rest, i =>
    let img' :=
      if alpha = 0 then img
      else
        let px := gx + ((i % w : ℕ) : ℤ)
        let py := gy + ((i / w : ℕ) : ℤ)
        if px < 0 ∨ (img.width : ℤ) ≤ px ∨ py < 0 ∨ (img.height : ℤ) ≤ py then img
        else img.put px py (blend_alpha_pixel (img.pix px py) color alpha)
    blend_glyph_go color gx gy w img' rest (i + 1)

/-- `blend_glyph` from `font.rs`: position the glyph bitmap so that its
baseline matches `y` (top row at `y - (height + bearing_y)`) and its left
edge at `x + bearing_x`, then composite every coverage sample. -/
def blend_glyph (img : Img) (glyph : GlyphInfo) (x y : ℤ) (color : Rgba) : Img :=
  let glyph_x := x + glyph.bearing_x
  let glyph_y := y - ((glyph.height : ℤ) + glyph.bearing_y)
  blend_glyph_go color glyph_x glyph_y glyph.width img glyph.data 0

/-- Proof infrastructure: sample `k` of the bitmap walk started at running
index `i0` lands on pixel `(X, Y)` with nonzero coverage, inside a surface
of the given dimensions. -/
def hitCond (gx gy : ℤ) (w : ℕ) (data : List ℕ) (i0 k : ℕ) (W H : ℕ)
    (X Y : ℤ) : Prop :=
  gx + (((i0 + k) % w : ℕ) : ℤ) = X ∧ gy + (((i0 + k) / w : ℕ) : ℤ) = Y ∧
    data.getD k 0 ≠ 0 ∧ 0 ≤ X ∧ X < (W : ℤ) ∧ 0 ≤ Y ∧ Y < (H : ℤ)

/-- The row-major offset grid of the double scan loop
`for py in 0..height { for px in 0..width { ... } }`. -/
def gridPixels (width height : ℕ) : List (ℕ × ℕ) :=
  (List.range height).flatMap (fun py => (List.range width).map fun px => (px, py))

/-- The painting loop shared by the rounded-rectangle fills: for each grid
offset, first skip destinations outside the image bounds, then test the
inside predicate and fill with the (single) color. -/
def paintPixels (inside : ℕ → ℕ → Bool) (x y : ℤ) (color : Rgba) :
    Img → List (ℕ × ℕ) → Img
  | img, [] => img
  | img, (px, py) :: rest =>
    let pixel_x := x + (px : ℤ)
    let pixel_y := y + (py : ℤ)
    let img' :=
      if pixel_x < 0 ∨ pixel_y < 0 ∨ (img.width : ℤ) ≤ pixel_x ∨
          (img.height : ℤ) ≤ pixel_y then img
      else if inside px py then img.put pixel_x pixel_y color else img
    paintPixels inside x y color img' rest

/-- The corner loop of `is_inside_rounded_rect`: at the first corner whose
quadrant condition (conjoined with the corner-coordinate equalities, as in
the source) holds, return the squared-distance test — even when it is
false. -/
def cornerTest (x y width height radius : ℚ) : List (ℚ × ℚ) → Bool
  | [] => false
  | (cx, cy) :: rest =>
    if (x ≤ radius ∧ y ≤ radius ∧ cx = radius ∧ cy = radius)
        ∨ (width - radius ≤ x ∧ y ≤ radius ∧ cx = width - radius ∧ cy = radius)
        ∨ (x ≤ radius ∧ height - radius ≤ y ∧ cx = radius ∧ cy = height - radius)
        ∨ (width - radius ≤ x ∧ height - radius ≤ y ∧ cx = width - radius ∧
            cy = height - radius) then
      decide ((x - cx) * (x - cx) + (y - cy) * (y - cy) ≤ radius * radius)
    else cornerTest x y width height radius rest

/-- `is_inside_rounded_rect` from `renderer.rs`: the two edge strips, then
the corner loop over top-left, top-right, bottom-left, bottom-right. -/
def is_inside_rounded_rect (x y width height radius : ℚ) : Bool :=
  if radius ≤ x ∧ x ≤ width - radius then true
  else if radius ≤ y ∧ y ≤ height - radius then true
  else
    cornerTest x y width height radius
      [(radius, radius), (width - radius, radius),
       (radius, height - radius), (width - radius, height - radius)]

/-- `draw_rounded_rect` from `renderer.rs`: the requested radius is
export-scaled, then clamped to half the smaller dimension; the w-by-h grid
is scanned with bounds-checked painting. -/
def draw_rounded_rect (cfg : RenderConfig) (img : Img) (x y : ℤ)
    (width height : ℕ) (radius : ℚ) (color : Rgba) : Img :=
  let scaled_radius := radius * cfg.export_size
  let max_radius := min (((min width height : ℕ) : ℚ) / 2) scaled_radius
  paintPixels
    (fun px py => is_inside_rounded_rect px py width height max_radius)
    x y color img (gridPixels width height)

/-- The corner loop of `is_inside_rounded_rect_top_only` (only the two top
corners, with the two-term quadrant condition of the source). -/
def cornerTestTop (x y width radius : ℚ) : List (ℚ × ℚ) → Bool
  | [] => false
  | (cx, cy) :: rest =>
    if (x ≤ radius ∧ y ≤ radius ∧ cx = radius ∧ cy = radius)
        ∨ (width - radius ≤ x ∧ y ≤ radius ∧ cx = width - radius ∧ cy = radius) then
      decide ((x - cx) * (x - cx) + (y - cy) * (y - cy) ≤ radius * radius)
    else cornerTestTop x y width radius rest

/-- `is_inside_rounded_rect_top_only` from `renderer.rs` (the `height`
parameter is unused in the source as well). -/
def is_inside_rounded_rect_top_only (x y width _height radius : ℚ) : Bool :=
  if radius ≤ x ∧ x ≤ width - radius then true
  else if radius ≤ y then true
  else
    cornerTestTop x y width radius [(radius, radius), (width - radius, radius)]

/-- `draw_rounded_rect_top_only` from `renderer.rs`. -/
def draw_rounded_rect_top_only (cfg : RenderConfig) (img : Img) (x y : ℤ)
    (width height : ℕ) (radius : ℚ) (color : Rgba) : Img :=
  let scaled_radius := radius * cfg.export_size
  let max_radius := min (((min width height : ℕ) : ℚ) / 2) scaled_radius
  paintPixels
    (fun px py => is_inside_rounded_rect_top_only px py width height max_radius)
    x y color img (gridPixels width height)

/-- The inside predicate claimed for the rounded-rectangle fill (spec-side,
from the claim's words): in the horizontal strip, or in the vertical strip,
or in one corner quadrant within squared distance `radius²` of that
corner's arc center. -/
def specInsideRoundedRect (px py w h r : ℚ) : Prop :=
  (r ≤ px ∧ px ≤ w - r) ∨ (r ≤ py ∧ py ≤ h - r) ∨
  (px ≤ r ∧ py ≤ r ∧ (px - r) * (px - r) + (py - r) * (py - r) ≤ r * r) ∨
  (w - r ≤ px ∧ py ≤ r ∧ (px - (w - r)) * (px - (w - r)) + (py - r) * (py - r) ≤ r * r) ∨
  (px ≤ r ∧ h - r ≤ py ∧ (px - r) * (px - r) + (py - (h - r)) * (py - (h - r)) ≤ r * r) ∨
  (w - r ≤ px ∧ h - r ≤ py ∧
    (px - (w - r)) * (px - (w - r)) + (py - (h - r)) * (py - (h - r)) ≤ r * r)

instance (px py w h r : ℚ) : Decidable (specInsideRoundedRect px py w h r) := by
  unfold specInsideRoundedRect
  infer_instance

/-- `rgba_from_hex` from `renderer.rs`: the same parsing steps as
`hex_to_rgb` (strip all leading `'#'`s, length test, three byte-sliced
base-16 components, panics on mid-character slicing), producing an opaque
color.  Error payloads are abstracted to the `hex_to_rgb` messages. -/
def rgba_from_hex (s : List ℕ) : Option (Except String Rgba) :=
  match hex_to_rgb s with
  | none => none
  | some (.error e) => some (.error e)
  | some (.ok (r, g, b)) => some (.ok ⟨r, g, b, 255⟩)

/-- `darken_color` from `renderer.rs`. -/
def darken_color (s : List ℕ) (factor : ℚ) : Option (Except String Rgba) :=
  match rgba_from_hex s with
  | none => none
  | some (.error e) => some (.error e)
  | some (.ok base_color) =>
    some (.ok ⟨rustCastU8 (base_color.r * (1 - factor)),
      rustCastU8 (base_color.g * (1 - factor)),
      rustCastU8 (base_color.b * (1 - factor)), base_color.a⟩)

/-- `interpolate_color` from `renderer.rs`: clamp the interpolation
parameter to [0, 1], per-channel linear interpolation, output alpha 255. -/
def interpolate_color (color1 color2 : Rgba) (t : ℚ) : Rgba :=
  let t' := clampQ t 0 1
  { r := rustCastU8 (color1.r * (1 - t') + color2.r * t'),
    g := rustCastU8 (color1.g * (1 - t') + color2.g * t'),
    b := rustCastU8 (color1.b * (1 - t') + color2.b * t'),
    a := 255 }

/-- `linear_gradient_horizontal` from `renderer.rs`. -/
def linear_gradient_horizontal (x width : ℕ) (color1 color2 : Rgba) : Rgba :=
  interpolate_color color1 color2 ((x : ℚ) / (width : ℚ))

/-- `linear_gradient_vertical` from `renderer.rs`. -/
def linear_gradient_vertical (y height : ℕ) (color1 color2 : Rgba) : Rgba :=
  interpolate_color color1 color2 ((y : ℚ) / (height : ℚ))

/-- Computable stand-in for `f32::sqrt` on the rational model (fixed-point
via `Nat.sqrt`); only the radial gradient uses it, and no claim depends on
its exact values. -/
def ratSqrtApprox (q : ℚ) : ℚ :=
  if q ≤ 0 then 0 else ((Nat.sqrt ⌊q * 10 ^ 12⌋.toNat : ℕ) : ℚ) / 10 ^ 6

/-- `radial_gradient` from `renderer.rs`. -/
def radial_gradient (x y width height : ℕ) (color1 color2 : Rgba) : Rgba :=
  let center_x : ℚ := (width : ℚ) / 2
  let center_y : ℚ := (height : ℚ) / 2
  let max_distance : ℚ :=
    ratSqrtApprox ((width * width + height * height : ℕ) : ℚ) / 2
  let distance : ℚ := ratSqrtApprox
    (((x : ℚ) - center_x) * ((x : ℚ) - center_x) +
      ((y : ℚ) - center_y) * ((y : ℚ) - center_y))
  interpolate_color color1 color2 (clampQ (distance / max_distance) 0 1)

/-- `diagonal_gradient` from `renderer.rs`. -/
def diagonal_gradient (x y width height : ℕ) (color1 color2 : Rgba) : Rgba :=
  interpolate_color color1 color2
    (((x : ℚ) / (width : ℚ) + (y : ℚ) / (height : ℚ)) / 2)

/-- `apply_noise_effect` from `renderer.rs`: one shared noise delta (the
`gen_range(-15.0..15.0)` draw, passed in) added to all three channels,
clamped to [0, 255]; alpha preserved. -/
def apply_noise_effect (color : Rgba) (noise : ℚ) : Rgba :=
  { r := rustCastU8 (clampQ ((color.r : ℚ) + noise) 0 255),
    g := rustCastU8 (clampQ ((color.g : ℚ) + noise) 0 255),
    b := rustCastU8 (clampQ ((color.b : ℚ) + noise) 0 255),
    a := color.a }

/-- `generate_random_gradient_color` from `renderer.rs`: lighten the theme
background by 60, then jitter each channel by one `gen_range(-30.0..30.0)`
draw (`d1`, `d2`, `d3`), clamped.  `unwrap_or` absorbs a parse error but
not the slicing panic, hence the `Option`. -/
def generate_random_gradient_color (self : SnippetRenderer) (d1 d2 d3 : ℚ) :
    Option Rgba :=
  match rgba_from_hex (utf8Bytes self.theme.background.hex) with
  | none => none
  | some res =>
    let base_color := match res with
      | .ok c => c
      | .error _ => ⟨30, 30, 30, 255⟩
    let lightened_base : Rgba :=
      ⟨rustCastU8 (clampQ ((base_color.r : ℚ) + 60) 0 255),
       rustCastU8 (clampQ ((base_color.g : ℚ) + 60) 0 255),
       rustCastU8 (clampQ ((base_color.b : ℚ) + 60) 0 255), 255⟩
    some ⟨rustCastU8 (clampQ ((lightened_base.r : ℚ) + d1) 0 255),
      rustCastU8 (clampQ ((lightened_base.g : ℚ) + d2) 0 255),
      rustCastU8 (clampQ ((lightened_base.b : ℚ) + d3) 0 255), 255⟩

/-- `draw_circle` from `renderer.rs`: scan the bounding square of the
radius and fill offsets with `dx² + dy² ≤ r²`, skipping out-of-bounds
pixels.  All writes share one color, so the loop is modelled denotationally
by its per-pixel effect (the offset hit by a pixel is unique). -/
def draw_circle (img : Img) (x y : ℤ) (radius : ℤ) (color_hex : List ℕ) :
    Option (Except String Img) :=
  match rgba_from_hex color_hex with
  | none => none
  | some (.error e) => some (.error e)
  | some (.ok color) =>
    some (.ok { img with pix := fun u v =>
      if -radius ≤ u - x ∧ u - x ≤ radius ∧ -radius ≤ v - y ∧ v - y ≤ radius ∧
          (u - x) * (u - x) + (v - y) * (v - y) ≤ radius * radius ∧
          0 ≤ u ∧ 0 ≤ v ∧ u < (img.width : ℤ) ∧ v < (img.height : ℤ)
      then color else img.pix u v })

/-- `draw_gradient_backdrop` from `renderer.rs`.  The `thread_rng()` draws
are modelled as an explicit stream `rng`: draws 0-2 and 3-5 are the channel
jitters of the two endpoint colors, draw 6 (floored) is the
`gen_range(0..4)` direction pick, and draw `7 + y*width + x` is the noise
delta of pixel `(x, y)`.  Every pixel of the `width`-by-`height` scan is
overwritten, so the loop is modelled denotationally. -/
def draw_gradient_backdrop (self : SnippetRenderer) (rng : ℕ → ℚ) (img : Img)
    (width height : ℕ) : Option Img :=
  match generate_random_gradient_color self (rng 0) (rng 1) (rng 2) with
  | none => none
  | some color1 =>
    match generate_random_gradient_color self (rng 3) (rng 4) (rng 5) with
    | none => none
    | some color2 =>
      let gradient_type : ℕ := ⌊rng 6⌋.toNat
      let newPix : ℤ → ℤ → Rgba := fun u v =>
        if 0 ≤ u ∧ 0 ≤ v ∧ u < (width : ℤ) ∧ v < (height : ℤ) then
          let xN := u.toNat
          let yN := v.toNat
          let pixel_color :=
            match gradient_type with
            | 0 => linear_gradient_horizontal xN width color1 color2
            | 1 => linear_gradient_vertical yN height color1 color2
            | 2 => radial_gradient xN yN width height color1 color2
            | _ => diagonal_gradient xN yN width height color1 color2
          if self.config.noise_effect then
            apply_noise_effect pixel_color (rng (7 + (yN * width + xN)))
          else pixel_color
        else img.pix u v
      some { img with pix := newPix }

/-- Rust `char::is_control` (the Cc category: U+0000-U+001F and
U+007F-U+009F). -/
def rustIsControl (c : Char) : Bool :=
  c.toNat < 32 || (127 ≤ c.toNat && c.toNat ≤ 159)

/-- The character loop of `draw_text`: skip control characters other than
tab, blend each glyph at the running pen position on the shared baseline,
and advance the pen by the glyph's advance width cast to `i32`. -/
def draw_text_go (self : SnippetRenderer) (y : ℤ) (color : Rgba) :
    Img → List Char → ℤ → Img × ℤ
  | img, [], current_x => (img, current_x)
  | img, ch :: rest, current_x =>
    if rustIsControl ch ∧ ch ≠ '\t' then
      draw_text_go self y color img rest current_x
    else
      let glyph := self.font_manager.render_glyph ch
      let img2 := blend_glyph img glyph current_x y color
      draw_text_go self y color img2 rest (current_x + rustCastI32 glyph.advance_width)

/-- `draw_text` from `renderer.rs`: returns the image and the horizontal
advance `(current_x - x) as u32`.  (The `font_size` parameter of the source
is unused there and omitted; the source always returns `Ok`.) -/
def draw_text (self : SnippetRenderer) (img : Img) (text : String) (x y : ℕ)
    (color : Rgba) : Img × ℕ :=
  let p := draw_text_go self (y : ℤ) color img text.data (x : ℤ)
  (p.1, i32AsU32 (p.2 - (x : ℤ)))

/-- The token loop of one line of `draw_code_content`: parse each token's
color (propagating error/panic) and draw its text, accumulating `x`. -/
def draw_tokens (self : SnippetRenderer) (y : ℕ) :
    Img → List HighlightedToken → ℕ → Option (Except String (Img × ℕ))
  | img, [], x => some (.ok (img, x))
  | img, token :: rest, x =>
    match rgba_from_hex (utf8Bytes token.color.hex) with
    | none => none
    | some (.error e) => some (.error e)
    | some (.ok token_color) =>
      let p := draw_text self img token.text x y token_color
      draw_tokens self y p.1 rest (x + p.2)

/-- The line loop of `draw_code_content`: per line, the optional gutter
(`gutter_string`, comment color, then the fixed `10 * export` spacing)
followed by the tokens. -/
def draw_code_lines (self : SnippetRenderer)
    (scaled_line_height start_y offset_x scaled_padding : ℕ) :
    Img → List HighlightedLine → ℕ → Option (Except String Img)
  | img, [], _ => some (.ok img)
  | img, line :: rest, line_index =>
    let y := start_y + line_index * scaled_line_height
    let x := offset_x + scaled_padding
    let afterGutter : Option (Except String (Img × ℕ)) :=
      if self.config.line_numbers then
        match rgba_from_hex (utf8Bytes self.theme.comment.hex) with
        | none => none
        | some (.error e) => some (.error e)
        | some (.ok line_num_color) =>
          let p := draw_text self img (gutter_string line_index) x y line_num_color
          some (.ok (p.1, x + p.2 + rustCastU32 (10 * self.config.export_size)))
      else some (.ok (img, x))
    match afterGutter with
    | none => none
    | some (.error e) => some (.error e)
    | some (.ok (img1, x1)) =>
      match draw_tokens self y img1 line.tokens x1 with
      | none => none
      | some (.error e) => some (.error e)
      | some (.ok (img2, _)) =>
        draw_code_lines self scaled_line_height start_y offset_x scaled_padding
          img2 rest (line_index + 1)

/-- `draw_code_content` from `renderer.rs`: text starts below the chrome
(or at the scaled padding), lines advance by the export-scaled line
height. -/
def draw_code_content (self : SnippetRenderer) (img : Img)
    (highlighted_lines : List HighlightedLine)
    (line_height offset_x offset_y : ℕ) : Option (Except String Img) :=
  let scaled_padding := self.config.get_scaled_padding
  let start_y := offset_y +
    (if self.config.window_controls then
      scaled_padding + rustCastU32 (40 * self.config.export_size)
    else scaled_padding)
  let scaled_line_height := rustCastU32 ((line_height : ℚ) * self.config.export_size)
  draw_code_lines self scaled_line_height start_y offset_x scaled_padding
    img highlighted_lines 0

/-- `draw_window_frame` from `renderer.rs`: the darkened top-rounded title
bar plus the three traffic-light circles with fixed colors. -/
def draw_window_frame (self : SnippetRenderer) (img : Img)
    (width _height padding offset_x offset_y : ℕ) : Option (Except String Img) :=
  let frame_height := rustCastU32 (40 * self.config.export_size)
  match darken_color (utf8Bytes self.theme.background.hex) (1 / 10) with
  | none => none
  | some (.error e) => some (.error e)
  | some (.ok title_bar_color) =>
    let img1 := draw_rounded_rect_top_only self.config img (offset_x : ℤ)
      (offset_y : ℤ) width frame_height self.config.border_radius title_bar_color
    let control_radius : ℤ := rustCastI32 (6 * self.config.export_size)
    let control_y : ℤ := (offset_y : ℤ) + ((frame_height / 2 : ℕ) : ℤ)
    let control_spacing : ℤ := rustCastI32 (20 * self.config.export_size)
    let start_x : ℤ := (offset_x : ℤ) + ((padding / 2 : ℕ) : ℤ)
    match draw_circle img1 start_x control_y control_radius (utf8Bytes "#ff5f56") with
    | none => none
    | some (.error e) => some (.error e)
    | some (.ok img2) =>
      match draw_circle img2 (start_x + control_spacing) control_y control_radius
          (utf8Bytes "#ffbd2e") with
      | none => none
      | some (.error e) => some (.error e)
      | some (.ok img3) =>
        match draw_circle img3 (start_x + control_spacing * 2) control_y
            control_radius (utf8Bytes "#27ca3f") with
        | none => none
        | some (.error e) => some (.error e)
        | some (.ok img4) => some (.ok img4)

/-- `render_snippet` from `renderer.rs`.  The randomness of the gradient
backdrop is the explicit stream `rng` (consumed only there, as in the
source, where `thread_rng()` is created inside `draw_gradient_backdrop`);
the result is the finished RGBA image — PNG serialization and base64
transport are external collaborators applied to it afterwards. -/
def render_snippet (self : SnippetRenderer) (rng : ℕ → ℚ)
    (code language : String) : Option (Except String Img) :=
  let highlighted_lines := self.highlighter code language self.theme
  let line_count := highlighted_lines.length % 2 ^ 32
  let base_line_height := self.font_manager.get_line_height
  let line_height := rustCastU32 ((base_line_height : ℚ) * self.config.line_height)
  let padding := self.config.padding
  let panel_height :=
    panel_height_calc line_count line_height padding self.config.window_controls
  let final_width :=
    self.config.get_actual_width + self.config.get_scaled_panel_padding * 2
  let final_height :=
    self.config.get_actual_height panel_height +
      self.config.get_scaled_panel_padding * 2
  let image : Img := ⟨final_width, final_height, fun _ _ => ⟨0, 0, 0, 0⟩⟩
  let backdrop : Option (Except String Img) :=
    if self.config.gradient_backdrop then
      match draw_gradient_backdrop self rng image final_width final_height with
      | none => none
      | some img2 => some (.ok img2)
    else
      match rgba_from_hex (utf8Bytes self.theme.background.hex) with
      | none => none
      | some (.error e) => some (.error e)
      | some (.ok bg_color) =>
        some (.ok { image with pix := fun u v =>
          (if 0 ≤ u ∧ 0 ≤ v ∧ u < (final_width : ℤ) ∧ v < (final_height : ℤ)
          then bg_color else image.pix u v) })
  match backdrop with
  | none => none
  | some (.error e) => some (.error e)
  | some (.ok image1) =>
    let panel_x := self.config.get_scaled_panel_padding
    let panel_y := self.config.get_scaled_panel_padding
    let panel_actual_width := self.config.get_actual_width
    let panel_actual_height := self.config.get_actual_height panel_height
    match rgba_from_hex (utf8Bytes self.theme.background.hex) with
    | none => none
    | some (.error e) => some (.error e)
    | some (.ok panel_bg_color) =>
      let image2 := draw_rounded_rect self.config image1 (panel_x : ℤ)
        (panel_y : ℤ) panel_actual_width panel_actual_height
        self.config.border_radius panel_bg_color
      let frame : Option (Except String Img) :=
        if self.config.window_controls then
          draw_window_frame self image2 panel_actual_width panel_actual_height
            padding panel_x panel_y
        else some (.ok image2)
      match frame with
      | none => none
      | some (.error e) => some (.error e)
      | some (.ok image3) =>
        draw_code_content self image3 highlighted_lines line_height panel_x panel_y

/-- A degenerate font capability used as a concrete input in witnesses (the
real rasterizer is external). -/
def trivialFontModel : FontManager :=
  ⟨fun _ => ⟨[], 0, 0, 0, 0, 0⟩, 34⟩

/-- The Dracula theme written out with its parsed RGB values (provably the
value of `get_theme "dracula"`), used as a concrete scenario input. -/
def dracula_theme_value : Theme :=
  ⟨"Dracula", ⟨"#282a36", (40, 42, 54)⟩, ⟨"#f8f8f2", (248, 248, 242)⟩,
   ⟨"#6272a4", (98, 114, 164)⟩, ⟨"#ff79c6", (255, 121, 198)⟩,
   ⟨"#f1fa8c", (241, 250, 140)⟩, ⟨"#bd93f9", (189, 147, 249)⟩,
   ⟨"#50fa7b", (80, 250, 123)⟩, ⟨"#8be9fd", (139, 233, 253)⟩,
   ⟨"#f8f8f2", (248, 248, 242)⟩, ⟨"#ff79c6", (255, 121, 198)⟩,
   ⟨"#f8f8f2", (248, 248, 242)⟩, ⟨"#bd93f9", (189, 147, 249)⟩,
   ⟨"#8be9fd", (139, 233, 253)⟩⟩

/-- A concrete renderer for the end-to-end scenario: Dracula theme, default
configuration, empty highlighter output and the degenerate font model. -/
def dracula_test_renderer : SnippetRenderer :=
  ⟨dracula_theme_value, render_config_default, fun _ _ _ => [], trivialFontModel⟩

/-- A concrete renderer with line numbers enabled (otherwise the scenario
above), used to exercise the gutter drawing of the code-content loop. -/
def gutter_test_renderer : SnippetRenderer :=
  ⟨dracula_theme_value, { render_config_default with line_numbers := true },
    fun _ _ _ => [], trivialFontModel⟩

-- ===== DEFINITIONS ABOVE / THEOREMS BELOW =====

example : hex_to_rgb (utf8Bytes "##aabbcc") = some (.ok (170, 187, 204)) := by rfl
example : claimSixHexAfterOneHash (utf8Bytes "##aabbcc") = false := by decide
example : hex_to_rgb (utf8Bytes "0é0é") = none := by rfl
example : hex_to_rgb (utf8Bytes "#ff5f56") = some (.ok (255, 95, 86)) := by rfl
example : hex_to_rgb (utf8Bytes "zz0000") = some (.error "Invalid red component") := by rfl
example : hex_to_rgb (utf8Bytes "+1+2+3") = some (.ok (1, 2, 3)) := by rfl
example : hex_to_rgb (utf8Bytes "-0-0-0") = some (.error "Invalid red component") := by rfl

lemma isHexDigitByte_ranges {b : ℕ} (h : isHexDigitByte b = true) :
    (48 ≤ b ∧ b ≤ 57) ∨ (97 ≤ b ∧ b ≤ 102) ∨ (65 ≤ b ∧ b ≤ 70) := by
  simpa [isHexDigitByte, Bool.or_eq_true, Bool.and_eq_true, decide_eq_true_eq, or_assoc]
    using h

lemma hexDigitVal_lt {b : ℕ} (h : isHexDigitByte b = true) : hexDigitVal b < 16 := by
  rcases isHexDigitByte_ranges h with h' | h' | h' <;>
    · unfold hexDigitVal
      split_ifs <;> simp_all <;> omega

lemma hexCharByte_hexDigitVal {b : ℕ} (h : isHexDigitByte b = true) :
    hexCharByte (hexDigitVal b) = lowerByte b := by
  rcases isHexDigitByte_ranges h with h' | h' | h' <;>
    · unfold hexDigitVal hexCharByte lowerByte
      split_ifs <;> simp_all <;> omega

lemma hexDigit_lt_128 {b : ℕ} (h : isHexDigitByte b = true) : b < 128 := by
  rcases isHexDigitByte_ranges h with h' | h' | h' <;> omega

lemma hexDigit_ne_sign {b : ℕ} (h : isHexDigitByte b = true) : b ≠ 43 ∧ b ≠ 45 := by
  rcases isHexDigitByte_ranges h with h' | h' | h' <;> omega

lemma u8Radix16Digits_two {b1 b2 : ℕ} (h1 : isHexDigitByte b1 = true)
    (h2 : isHexDigitByte b2 = true) :
    u8Radix16Digits [b1, b2] 0 = some (hexDigitVal b1 * 16 + hexDigitVal b2) := by
  have l1 := hexDigitVal_lt h1
  have l2 := hexDigitVal_lt h2
  unfold u8Radix16Digits
  rw [if_pos h1, if_pos (by omega : 0 * 16 + hexDigitVal b1 ≤ 255)]
  unfold u8Radix16Digits
  rw [if_pos h2, if_pos (by omega : (0 * 16 + hexDigitVal b1) * 16 + hexDigitVal b2 ≤ 255)]
  unfold u8Radix16Digits
  congr 1
  omega

lemma parse_two_hex {b1 b2 : ℕ} (h1 : isHexDigitByte b1 = true)
    (h2 : isHexDigitByte b2 = true) :
    u8_from_str_radix_16 [b1, b2] = some (hexDigitVal b1 * 16 + hexDigitVal b2) := by
  obtain ⟨hs1, -⟩ := hexDigit_ne_sign h1
  simp only [u8_from_str_radix_16, if_neg hs1]
  exact u8Radix16Digits_two h1 h2

lemma parse_head_lt {b : ℕ} {rest : List ℕ} {v : ℕ}
    (h : u8_from_str_radix_16 (b :: rest) = some v) : b < 128 := by
  by_cases hb1 : b = 43
  · omega
  · simp only [u8_from_str_radix_16, if_neg hb1] at h
    unfold u8Radix16Digits at h
    by_cases hd : isHexDigitByte b = true
    · exact hexDigit_lt_128 hd
    · rw [if_neg hd] at h
      cases h

lemma list_len_six {l : List ℕ} (h : l.length = 6) :
    ∃ a b c d e f, l = [a, b, c, d, e, f] := by
  rcases l with _ | ⟨a, _ | ⟨b, _ | ⟨c, _ | ⟨d, _ | ⟨e, _ | ⟨f, rest⟩⟩⟩⟩⟩⟩ <;>
    simp_all

theorem hex_to_rgb_six {s : List ℕ} {b0 b1 b2 b3 b4 b5 : ℕ}
    (hE : trimStartHash s = [b0, b1, b2, b3, b4, b5]) :
    hex_to_rgb s =
      if 128 ≤ b2 ∧ b2 < 192 then none
      else
        match u8_from_str_radix_16 [b0, b1] with
        | none => some (.error "Invalid red component")
        | some r =>
          if 128 ≤ b4 ∧ b4 < 192 then none
          else
            match u8_from_str_radix_16 [b2, b3] with
            | none => some (.error "Invalid green component")
            | some g =>
              match u8_from_str_radix_16 [b4, b5] with
              | none => some (.error "Invalid blue component")
              | some b => some (.ok (r, g, b))
    := by
  by_cases hb2 : 128 ≤ b2 ∧ b2 < 192
  · have hs1 : strSlice [b0, b1, b2, b3, b4, b5] 0 2 = none := by
      simp [strSlice, isCharBoundary]
      omega
    simp [hex_to_rgb, hE, hs1, hb2]
  · have hs1 : strSlice [b0, b1, b2, b3, b4, b5] 0 2 = some [b0, b1] := by
      simp [strSlice, isCharBoundary]
      omega
    by_cases hb4 : 128 ≤ b4 ∧ b4 < 192
    · have hs2 : strSlice [b0, b1, b2, b3, b4, b5] 2 4 = none := by
        simp [strSlice, isCharBoundary]
        omega
      simp only [hex_to_rgb, hE, hs1, hs2]
      norm_num
      rw [if_neg hb2]
      cases u8_from_str_radix_16 [b0, b1] <;> simp [hb4]
    · have hs2 : strSlice [b0, b1, b2, b3, b4, b5] 2 4 = some [b2, b3] := by
        simp [strSlice, isCharBoundary]
        omega
      have hs3 : strSlice [b0, b1, b2, b3, b4, b5] 4 6 = some [b4, b5] := by
        simp [strSlice, isCharBoundary]
        omega
      simp only [hex_to_rgb, hE, hs1, hs2, hs3]
      norm_num
      rw [if_neg hb2]
      cases u8_from_str_radix_16 [b0, b1] <;> simp [hb4]

theorem hex_to_rgb_success_iff (s : List ℕ) :
    (∃ v, hex_to_rgb s = some (.ok v)) ↔
      ((trimStartHash s).length = 6 ∧
        (u8_from_str_radix_16 ((trimStartHash s).take 2)).isSome = true ∧
        (u8_from_str_radix_16 (((trimStartHash s).drop 2).take 2)).isSome = true ∧
        (u8_from_str_radix_16 (((trimStartHash s).drop 4).take 2)).isSome = true) := by
  by_cases hl : (trimStartHash s).length = 6
  · obtain ⟨b0, b1, b2, b3, b4, b5, hE⟩ := list_len_six hl
    rw [hex_to_rgb_six hE, hE]
    simp only [List.take_succ_cons, List.take_zero, List.drop_succ_cons, List.drop_zero,
      List.length_cons, List.length_nil]
    by_cases hb2 : 128 ≤ b2 ∧ b2 < 192
    · rw [if_pos hb2]
      constructor
      · rintro ⟨v, hv⟩
        cases hv
      · rintro ⟨-, -, h3, -⟩
        obtain ⟨v, hv⟩ := Option.isSome_iff_exists.mp h3
        exact absurd (parse_head_lt hv) (by omega)
    · rw [if_neg hb2]
      cases hp1 : u8_from_str_radix_16 [b0, b1] with
      | none =>
        simp
      | some r =>
        dsimp only
        by_cases hb4 : 128 ≤ b4 ∧ b4 < 192
        · rw [if_pos hb4]
          constructor
          · rintro ⟨v, hv⟩
            cases hv
          · rintro ⟨-, -, -, h4⟩
            obtain ⟨v, hv⟩ := Option.isSome_iff_exists.mp h4
            exact absurd (parse_head_lt hv) (by omega)
        · rw [if_neg hb4]
          cases hp2 : u8_from_str_radix_16 [b2, b3] with
          | none => simp
          | some g =>
            cases hp3 : u8_from_str_radix_16 [b4, b5] with
            | none => simp
            | some b => simp
  · have herr : hex_to_rgb s = some (.error "Invalid hex color format") := by
      simp only [hex_to_rgb]
      rw [if_pos hl]
    rw [herr]
    constructor
    · rintro ⟨v, hv⟩
      cases hv
    · rintro ⟨h1, -⟩
      exact absurd h1 hl

theorem hex_to_rgb_roundtrip (s : List ℕ)
    (h6 : (trimStartHash s).length = 6)
    (hall : ∀ b ∈ trimStartHash s, isHexDigitByte b = true) :
    ∃ v, hex_to_rgb s = some (.ok v) ∧
      rgb_to_hex_lower v = (trimStartHash s).map lowerByte := by
  obtain ⟨b0, b1, b2, b3, b4, b5, hE⟩ := list_len_six h6
  rw [hE] at hall
  have h0 := hall b0 (by simp)
  have h1 := hall b1 (by simp)
  have h2 := hall b2 (by simp)
  have h3 := hall b3 (by simp)
  have h4 := hall b4 (by simp)
  have h5 := hall b5 (by simp)
  refine ⟨(hexDigitVal b0 * 16 + hexDigitVal b1,
           hexDigitVal b2 * 16 + hexDigitVal b3,
           hexDigitVal b4 * 16 + hexDigitVal b5), ?_, ?_⟩
  · rw [hex_to_rgb_six hE]
    rw [if_neg (by have := hexDigit_lt_128 h2; omega : ¬(128 ≤ b2 ∧ b2 < 192))]
    rw [parse_two_hex h0 h1]
    simp only []
    rw [if_neg (by have := hexDigit_lt_128 h4; omega : ¬(128 ≤ b4 ∧ b4 < 192))]
    rw [parse_two_hex h2 h3, parse_two_hex h4 h5]
  · have e0 : (hexDigitVal b0 * 16 + hexDigitVal b1) / 16 = hexDigitVal b0 := by
      have := hexDigitVal_lt h1
      omega
    have e1 : (hexDigitVal b0 * 16 + hexDigitVal b1) % 16 = hexDigitVal b1 := by
      have := hexDigitVal_lt h1
      omega
    have e2 : (hexDigitVal b2 * 16 + hexDigitVal b3) / 16 = hexDigitVal b2 := by
      have := hexDigitVal_lt h3
      omega
    have e3 : (hexDigitVal b2 * 16 + hexDigitVal b3) % 16 = hexDigitVal b3 := by
      have := hexDigitVal_lt h3
      omega
    have e4 : (hexDigitVal b4 * 16 + hexDigitVal b5) / 16 = hexDigitVal b4 := by
      have := hexDigitVal_lt h5
      omega
    have e5 : (hexDigitVal b4 * 16 + hexDigitVal b5) % 16 = hexDigitVal b5 := by
      have := hexDigitVal_lt h5
      omega
    rw [hE]
    simp [rgb_to_hex_lower, e0, e1, e2, e3, e4, e5,
      hexCharByte_hexDigitVal h0, hexCharByte_hexDigitVal h1, hexCharByte_hexDigitVal h2,
      hexCharByte_hexDigitVal h3, hexCharByte_hexDigitVal h4, hexCharByte_hexDigitVal h5]

/-- Claim C5 counterexample: the input "##aabbcc" is not 6 hex digits after
stripping a single leading hash (so the claim says parsing must fail), yet
`hex_to_rgb` succeeds on it, because `trim_start_matches` strips every
leading hash. -/
theorem hex_parse_claimed_domain_false :
    (∃ v, hex_to_rgb (utf8Bytes "##aabbcc") = some (.ok v)) ∧
      claimSixHexAfterOneHash (utf8Bytes "##aabbcc") = false :=
  ⟨⟨(170, 187, 204), by rfl⟩, by decide⟩

/-- Claim C5 (amended): hex parsing succeeds exactly when, after stripping
all leading hash characters, the input is 6 bytes long and each of the three
2-byte chunks is accepted by Rust u8 base-16 parsing (strings slicing at a
non-character boundary panic instead); and for every input whose stripped
form is 6 hex digits the parsed triple, re-formatted as 6 lowercase hex
digits, equals the lowercased stripped input. -/
theorem hex_parse_domain_and_roundtrip (s : List ℕ) :
    ((∃ v, hex_to_rgb s = some (.ok v)) ↔
      ((trimStartHash s).length = 6 ∧
        (u8_from_str_radix_16 ((trimStartHash s).take 2)).isSome = true ∧
        (u8_from_str_radix_16 (((trimStartHash s).drop 2).take 2)).isSome = true ∧
        (u8_from_str_radix_16 (((trimStartHash s).drop 4).take 2)).isSome = true)) ∧
    ((trimStartHash s).length = 6 → (∀ b ∈ trimStartHash s, isHexDigitByte b = true) →
      ∃ v, hex_to_rgb s = some (.ok v) ∧
        rgb_to_hex_lower v = (trimStartHash s).map lowerByte) :=
  ⟨hex_to_rgb_success_iff s, hex_to_rgb_roundtrip s⟩

/-- Witness for the amended C5 theorem at the concrete input "#AaBbCc". -/
theorem hex_parse_domain_and_roundtrip_witness :
    (trimStartHash (utf8Bytes "#AaBbCc")).length = 6 ∧
      (∀ b ∈ trimStartHash (utf8Bytes "#AaBbCc"), isHexDigitByte b = true) ∧
      ∃ v, hex_to_rgb (utf8Bytes "#AaBbCc") = some (.ok v) ∧
        rgb_to_hex_lower v = (trimStartHash (utf8Bytes "#AaBbCc")).map lowerByte :=
  ⟨by decide, by decide,
    (hex_parse_domain_and_roundtrip (utf8Bytes "#AaBbCc")).2 (by decide) (by decide)⟩

lemma get_theme_with_some_iff (to_lowercase : String → String) (name : String) :
    (∃ t, get_theme_with to_lowercase name = some t) ↔
      (to_lowercase name) ∈ get_theme_names := by
  unfold get_theme_with
  split
  · next h => simp [h, get_theme_names]; exact ⟨_, rfl⟩
  · next h => simp [h, get_theme_names]; exact ⟨_, rfl⟩
  · next h => simp [h, get_theme_names]; exact ⟨_, rfl⟩
  · next h => simp [h, get_theme_names]; exact ⟨_, rfl⟩
  · next h => simp [h, get_theme_names]; exact ⟨_, rfl⟩
  · next h => simp [h, get_theme_names]; exact ⟨_, rfl⟩
  · next h => simp [h, get_theme_names]; exact ⟨_, rfl⟩
  · next h => simp [h, get_theme_names]; exact ⟨_, rfl⟩
  · next h1 h2 h3 h4 h5 h6 h7 h8 =>
    simp only [get_theme_names, List.mem_cons, List.not_mem_nil, or_false]
    constructor
    · rintro ⟨t, ht⟩
      cases ht
    · rintro (h | h | h | h | h | h | h | h) <;> simp_all

/-- Claim C6: theme lookup is case-insensitive.  Rust's full-Unicode
`str::to_lowercase` is an external Unicode-table capability, so the
statement is quantified over the lowercasing function (the program is the
instance at the real `str::to_lowercase`, so in particular a name like
"MONO" followed by U+212A KELVIN SIGN and "AI", whose lowercased form is
"monokai", is found): for every lowercasing function and every name,
`get_theme` returns a theme iff the lowercased name is one of the eight
catalog names, and whenever the lowercased name is outside the catalog
`SnippetRenderer::new` returns an error (no fallback theme) before any
drawing begins. -/
theorem get_theme_catalog_and_new_error (to_lowercase : String → String)
    (name : String) :
    ((∃ t, get_theme_with to_lowercase name = some t) ↔
      (to_lowercase name) ∈ get_theme_names) ∧
    ((to_lowercase name) ∉ get_theme_names →
      ∀ (cfg : RenderConfig) (fr : Except String FontManager)
        (hl : String → String → Theme → List HighlightedLine),
        ∃ e, snippet_renderer_new_with to_lowercase name cfg fr hl = .error e) := by
  refine ⟨get_theme_with_some_iff to_lowercase name, ?_⟩
  intro hnot cfg fr hl
  have hn : get_theme_with to_lowercase name = none := by
    cases hgt : get_theme_with to_lowercase name with
    | none => rfl
    | some t =>
      exact absurd ((get_theme_with_some_iff to_lowercase name).mp ⟨t, hgt⟩) hnot
  refine ⟨"Unknown theme: " ++ name, ?_⟩
  simp [snippet_renderer_new_with, hn]

/-- Witness for C6: the unknown name "theme-x" under the concrete ASCII
lowercasing instance (which agrees with `str::to_lowercase` on it). -/
theorem get_theme_catalog_and_new_error_witness :
    (rustToLowercase "theme-x" ∉ get_theme_names) ∧
    (∃ e, snippet_renderer_new_with rustToLowercase "theme-x"
      render_config_default (.error "no font") (fun _ _ _ => []) = .error e) :=
  ⟨by decide,
    (get_theme_catalog_and_new_error rustToLowercase "theme-x").2 (by decide)
      render_config_default (.error "no font") (fun _ _ _ => [])⟩

/-- Claim C10 counterexample: `ThemeColor::new` is not total — on the
malformed 6-byte string "0é0é" the underlying hex parser slices mid
character and panics, so no `ThemeColor` is produced at all. -/
theorem themeColorNew_panics_on_input :
    ThemeColor.new "0é0é" = none := by rfl

/-- Claim C10 (amended): except for inputs on which the hex parser panics
(a 6-byte stripped form sliced at a UTF-8 continuation byte — impossible for
ASCII input), `ThemeColor::new` is total and never reports an error: it
stores the original string in `hex` and, when parsing fails, silently falls
back to the RGB triple (255, 255, 255), so the two fields may disagree
(e.g. for input "zzzzzz"). -/
theorem themeColorNew_total_spec :
    (∀ s : String, (hex_to_rgb (utf8Bytes s)).isSome = true →
      ∃ tc, ThemeColor.new s = some tc ∧ tc.hex = s ∧
        ((∀ v, hex_to_rgb (utf8Bytes s) ≠ some (.ok v)) → tc.rgb = (255, 255, 255))) ∧
    (∃ tc, ThemeColor.new "zzzzzz" = some tc ∧ tc.hex = "zzzzzz" ∧
      tc.rgb = (255, 255, 255)) := by
  constructor
  · intro s hs
    cases heq : hex_to_rgb (utf8Bytes s) with
    | none => rw [heq] at hs; cases hs
    | some r =>
      cases r with
      | ok v =>
        refine ⟨⟨s, v⟩, ?_, rfl, ?_⟩
        · simp [ThemeColor.new, heq]
        · intro hv
          exact absurd rfl (heq ▸ hv v)
      | error e =>
        refine ⟨⟨s, (255, 255, 255)⟩, ?_, rfl, fun _ => rfl⟩
        simp [ThemeColor.new, heq]
  · exact ⟨⟨"zzzzzz", (255, 255, 255)⟩, by rfl, rfl, rfl⟩

/-- Witness for the amended C10 theorem at the concrete malformed ASCII
input "not-a-color". -/
theorem themeColorNew_total_spec_witness :
    (hex_to_rgb (utf8Bytes "not-a-color")).isSome = true ∧
    ∃ tc, ThemeColor.new "not-a-color" = some tc ∧ tc.hex = "not-a-color" ∧
      ((∀ v, hex_to_rgb (utf8Bytes "not-a-color") ≠ some (.ok v)) →
        tc.rgb = (255, 255, 255)) :=
  ⟨by rfl, themeColorNew_total_spec.1 "not-a-color" (by rfl)⟩

/-- Claim C2 counterexample: with a zero per-line advance, zero padding and
window controls disabled (all reachable configuration values), the panel
height of empty input is 0, not strictly positive; and even with a positive
line advance (2^31), two lines wrap the u32 product `line_count *
line_height` to 0, so the panel height is again 0. -/
theorem panel_height_not_always_positive :
    (panel_height_calc 0 0 0 false = 0 ∧ ¬(0 < panel_height_calc 0 0 0 false)) ∧
    (0 < 2 ^ 31 ∧ panel_height_calc 2 (2 ^ 31) 0 false = 0) := by
  refine ⟨by decide, by decide, ?_⟩
  show ((2 * 2 ^ 31 % 2 ^ 32 + 0 % 2 ^ 32) % 2 ^ 32 + 0) % 2 ^ 32 = 0
  norm_num

/-- Claim C2 (amended): content height is line count times line advance
reduced modulo 2^32 (u32 wrap), or one line advance for zero lines; panel
height adds twice the padding and 40 for window chrome, each u32 operation
again wrapping modulo 2^32; when none of the three operations overflows,
the panel height is strictly positive whenever the line advance is
positive, the padding is positive, or window controls are enabled (the
wrap can zero it otherwise, and it is zero when all three are absent). -/
theorem content_and_panel_height_spec (lc lh pad : ℕ) (wc : Bool) :
    content_height_calc lc lh =
      (if 0 < lc then (lc * lh) % 2 ^ 32 else lh) ∧
    panel_height_calc lc lh pad wc =
      ((content_height_calc lc lh + (pad * 2) % 2 ^ 32) % 2 ^ 32 +
        (if wc then 40 else 0)) % 2 ^ 32 ∧
    (lc * lh < 2 ^ 32 → pad * 2 < 2 ^ 32 →
      content_height_calc lc lh + pad * 2 + (if wc then 40 else 0) < 2 ^ 32 →
      (0 < lh ∨ 0 < pad ∨ wc = true) → 0 < panel_height_calc lc lh pad wc) := by
  refine ⟨rfl, rfl, ?_⟩
  intro h1 h2 h3 h
  have hc : 0 < content_height_calc lc lh ∨ 0 < pad ∨ wc = true := by
    rcases h with h | h | h
    · left
      unfold content_height_calc
      split
      · rw [Nat.mod_eq_of_lt h1]
        exact Nat.mul_pos (by assumption) h
      · exact h
    · exact Or.inr (Or.inl h)
    · exact Or.inr (Or.inr h)
  unfold panel_height_calc
  rw [Nat.mod_eq_of_lt h2,
    Nat.mod_eq_of_lt (lt_of_le_of_lt (Nat.le_add_right _ _) h3),
    Nat.mod_eq_of_lt h3]
  rcases hc with h | h | h
  · omega
  · omega
  · rw [h]
    simp

/-- Witness for the amended C2 theorem: empty input, line advance 34,
padding 64, window controls on; none of the u32 operations overflows. -/
theorem content_and_panel_height_spec_witness :
    ((0 : ℕ) * 34 < 2 ^ 32 ∧ (64 : ℕ) * 2 < 2 ^ 32 ∧
      content_height_calc 0 34 + 64 * 2 + 40 < 2 ^ 32 ∧
      ((0 : ℕ) < 34 ∨ (0 : ℕ) < 64 ∨ true = true)) ∧
      0 < panel_height_calc 0 34 64 true :=
  ⟨by refine ⟨by decide, by decide, by decide, by decide⟩,
    (content_and_panel_height_spec 0 34 64 true).2.2 (by decide) (by decide)
      (by decide) (by decide)⟩

/-- Claim C7 counterexample: the gutter text for the first line is the
space-padded "  1 " produced by the width-3 format, not the zero-padded
3-digit representation "001" (with or without the trailing space). -/
theorem gutter_is_space_padded_not_zero_padded :
    gutter_string 0 = "  1 " ∧ zeroPad3 (0 + 1) = "001" ∧
      gutter_string 0 ≠ zeroPad3 (0 + 1) ∧ gutter_string 0 ≠ zeroPad3 (0 + 1) ++ " " := by
  refine ⟨by decide, by decide, by decide, by decide⟩

/-- Claim C7 (amended): when line numbers are enabled and the theme's
comment color parses, one iteration of the `draw_code_content` line loop
first draws the gutter text of `format!("{:3} ", i + 1)` — the decimal
representation of `i + 1` right-aligned and space-padded to minimum width
3, followed by a space — in the theme's comment color at the line's pen
origin, then advances the pen past the drawn gutter by the fixed spacing
`(10.0 * export_size) as u32` before drawing the line's tokens. -/
theorem gutter_draw_spec (self : SnippetRenderer)
    (slh sy ox sp li : ℕ) (line : HighlightedLine)
    (rest : List HighlightedLine) (img : Img) (c : Rgba)
    (hln : self.config.line_numbers = true)
    (hc : rgba_from_hex (utf8Bytes self.theme.comment.hex) = some (.ok c)) :
    draw_code_lines self slh sy ox sp img (line :: rest) li =
      (match draw_tokens self (sy + li * slh)
          (draw_text self img (gutter_string li) (ox + sp) (sy + li * slh) c).1
          line.tokens
          (ox + sp +
            (draw_text self img (gutter_string li) (ox + sp) (sy + li * slh) c).2 +
            rustCastU32 (10 * self.config.export_size)) with
      | none => none
      | some (.error e) => some (.error e)
      | some (.ok (img2, _)) =>
        draw_code_lines self slh sy ox sp img2 rest (li + 1)) ∧
    gutter_string li =
      String.mk (List.replicate (3 - (toString (li + 1)).length) ' ')
        ++ toString (li + 1) ++ " " := by
  refine ⟨?_, rfl⟩
  simp only [draw_code_lines]
  rw [if_pos hln, hc]

/-- Witness for the amended C7 theorem: the first line (index 0) of a
one-line input on the line-numbered Dracula renderer; its comment color
"#6272a4" parses to (98, 114, 164). -/
theorem gutter_draw_spec_witness :
    gutter_test_renderer.config.line_numbers = true ∧
    rgba_from_hex (utf8Bytes gutter_test_renderer.theme.comment.hex) =
      some (.ok ⟨98, 114, 164, 255⟩) ∧
    gutter_string 0 =
      String.mk (List.replicate (3 - (toString (0 + 1)).length) ' ')
        ++ toString (0 + 1) ++ " " :=
  ⟨rfl, by rfl,
    (gutter_draw_spec gutter_test_renderer 10 0 0 0 0 ⟨[]⟩ []
      ⟨4, 4, fun _ _ => ⟨0, 0, 0, 0⟩⟩ ⟨98, 114, 164, 255⟩ rfl (by rfl)).2⟩

lemma blend_glyph_go_dims (color : Rgba) (gx gy : ℤ) (w : ℕ) (data : List ℕ) :
    ∀ (i0 : ℕ) (img : Img),
      (blend_glyph_go color gx gy w img data i0).width = img.width ∧
      (blend_glyph_go color gx gy w img data i0).height = img.height := by
  induction data with
  | nil => intro i0 img; exact ⟨rfl, rfl⟩
  | cons a rest ih =>
    intro i0 img
    simp only [blend_glyph_go]
    refine ⟨?_, ?_⟩
    · rw [(ih (i0 + 1) _).1]
      split_ifs <;> rfl
    · rw [(ih (i0 + 1) _).2]
      split_ifs <;> rfl

lemma pos_inj {w : ℕ} (hw : 0 < w) {i j : ℕ}
    (hx : i % w = j % w) (hy : i / w = j / w) : i = j := by
  have h1 := Nat.div_add_mod i w
  have h2 := Nat.div_add_mod j w
  rw [hx, hy] at h1
  omega

lemma blend_glyph_go_miss (color : Rgba) (gx gy : ℤ) (w : ℕ) (data : List ℕ) :
    ∀ (i0 : ℕ) (img : Img) (X Y : ℤ),
      (∀ k, k < data.length → ¬ hitCond gx gy w data i0 k img.width img.height X Y) →
      (blend_glyph_go color gx gy w img data i0).pix X Y = img.pix X Y := by
  induction data with
  | nil => intro i0 img X Y _; rfl
  | cons a rest ih =>
    intro i0 img X Y hmiss
    have hshift : ∀ (img2 : Img), img2.width = img.width → img2.height = img.height →
        ∀ k, k < rest.length →
          ¬ hitCond gx gy w rest (i0 + 1) k img2.width img2.height X Y := by
      intro img2 hW hH k hk hc
      apply hmiss (k + 1) (by simpa using Nat.succ_lt_succ hk)
      unfold hitCond at hc ⊢
      rw [show i0 + (k + 1) = i0 + 1 + k by omega]
      simpa [hW, hH] using hc
    simp only [blend_glyph_go]
    by_cases ha : a = 0
    · rw [if_pos ha]
      exact ih (i0 + 1) img X Y (hshift img rfl rfl)
    · rw [if_neg ha]
      by_cases hb : gx + ((i0 % w : ℕ) : ℤ) < 0 ∨
          (img.width : ℤ) ≤ gx + ((i0 % w : ℕ) : ℤ) ∨
          gy + ((i0 / w : ℕ) : ℤ) < 0 ∨ (img.height : ℤ) ≤ gy + ((i0 / w : ℕ) : ℤ)
      · rw [if_pos hb]
        exact ih (i0 + 1) img X Y (hshift img rfl rfl)
      · rw [if_neg hb]
        push_neg at hb
        obtain ⟨hb1, hb2, hb3, hb4⟩ := hb
        have hput : (img.put (gx + ((i0 % w : ℕ) : ℤ)) (gy + ((i0 / w : ℕ) : ℤ))
            (blend_alpha_pixel (img.pix (gx + ((i0 % w : ℕ) : ℤ))
              (gy + ((i0 / w : ℕ) : ℤ))) color a)).pix X Y = img.pix X Y := by
          unfold Img.put
          dsimp only
          split_ifs with h
          · exfalso
            obtain ⟨hX, hY⟩ := h
            exact hmiss 0 (by simp)
              ⟨by simpa using hX.symm, by simpa using hY.symm, by simpa using ha,
               by omega, by omega, by omega, by omega⟩
          · rfl
        rw [ih (i0 + 1)
          (img.put (gx + ((i0 % w : ℕ) : ℤ)) (gy + ((i0 / w : ℕ) : ℤ))
            (blend_alpha_pixel (img.pix (gx + ((i0 % w : ℕ) : ℤ))
              (gy + ((i0 / w : ℕ) : ℤ))) color a))
          X Y (hshift _ rfl rfl)]
        exact hput

lemma blend_glyph_go_hit (color : Rgba) (gx gy : ℤ) {w : ℕ} (hw : 0 < w)
    (data : List ℕ) :
    ∀ (i0 : ℕ) (img : Img) (k : ℕ) (X Y : ℤ),
      k < data.length →
      hitCond gx gy w data i0 k img.width img.height X Y →
      (blend_glyph_go color gx gy w img data i0).pix X Y =
        blend_alpha_pixel (img.pix X Y) color (data.getD k 0) := by
  induction data with
  | nil =>
    intro i0 img k X Y hk
    exact absurd hk (by simp)
  | cons a rest ih =>
    intro i0 img k X Y hk hc
    simp only [blend_glyph_go]
    cases k with
    | zero =>
      obtain ⟨hX, hY, hnz, hX0, hXw, hY0, hYh⟩ := hc
      simp only [Nat.add_zero] at hX hY
      have ha : a ≠ 0 := by simpa using hnz
      subst hX
      subst hY
      rw [if_neg ha, if_neg (by push_neg; exact ⟨hX0, hXw, hY0, hYh⟩)]
      rw [blend_glyph_go_miss color gx gy w rest (i0 + 1) _ _ _ ?nohit]
      · unfold Img.put
        dsimp only
        rw [if_pos ⟨rfl, rfl⟩]
        simp
      case nohit =>
        intro k hk2 hc2
        obtain ⟨h1, h2, -, -, -, -, -⟩ := hc2
        have hm : (i0 + 1 + k) % w = i0 % w := by
          have := add_left_cancel h1
          exact_mod_cast this
        have hd : (i0 + 1 + k) / w = i0 / w := by
          have := add_left_cancel h2
          exact_mod_cast this
        have := pos_inj hw hm hd
        omega
    | succ k' =>
      obtain ⟨hX, hY, hnz, hX0, hXw, hY0, hYh⟩ := hc
      have hk' : k' < rest.length := by simpa using Nat.lt_of_succ_lt_succ hk
      have hcrest : hitCond gx gy w rest (i0 + 1) k' img.width img.height X Y := by
        refine ⟨?_, ?_, by simpa using hnz, hX0, hXw, hY0, hYh⟩
        · rw [show i0 + 1 + k' = i0 + (k' + 1) by omega]
          exact hX
        · rw [show i0 + 1 + k' = i0 + (k' + 1) by omega]
          exact hY
      simp only [List.getD_cons_succ]
      by_cases ha : a = 0
      · rw [if_pos ha]
        exact ih (i0 + 1) img k' X Y hk' hcrest
      · rw [if_neg ha]
        by_cases hb : gx + ((i0 % w : ℕ) : ℤ) < 0 ∨
            (img.width : ℤ) ≤ gx + ((i0 % w : ℕ) : ℤ) ∨
            gy + ((i0 / w : ℕ) : ℤ) < 0 ∨ (img.height : ℤ) ≤ gy + ((i0 / w : ℕ) : ℤ)
        · rw [if_pos hb]
          exact ih (i0 + 1) img k' X Y hk' hcrest
        · rw [if_neg hb]
          have hpix : (img.put (gx + ((i0 % w : ℕ) : ℤ)) (gy + ((i0 / w : ℕ) : ℤ))
              (blend_alpha_pixel (img.pix (gx + ((i0 % w : ℕ) : ℤ))
                (gy + ((i0 / w : ℕ) : ℤ))) color a)).pix X Y = img.pix X Y := by
            unfold Img.put
            dsimp only
            split_ifs with h
            · exfalso
              obtain ⟨h1, h2⟩ := h
              rw [← hX] at h1
              rw [← hY] at h2
              have hm : (i0 + (k' + 1)) % w = i0 % w := by
                have := add_left_cancel h1
                exact_mod_cast this
              have hd : (i0 + (k' + 1)) / w = i0 / w := by
                have := add_left_cancel h2
                exact_mod_cast this
              have := pos_inj hw hm hd
              omega
            · rfl
          rw [ih (i0 + 1)
            (img.put (gx + ((i0 % w : ℕ) : ℤ)) (gy + ((i0 / w : ℕ) : ℤ))
              (blend_alpha_pixel (img.pix (gx + ((i0 % w : ℕ) : ℤ))
                (gy + ((i0 / w : ℕ) : ℤ))) color a))
            k' X Y hk' hcrest]
          rw [hpix]

/-- Claim C4: every coverage sample `(row, col)` with nonzero coverage is
composited at destination `(penX + horizontal bearing + col,
baselineY - (glyph height + vertical bearing) + row)`; out-of-bounds
destinations are skipped; coverage 0 leaves the destination unchanged,
coverage 255 writes the foreground color exactly, and intermediate coverage
writes the coverage-weighted linear interpolation of existing pixel and
color with output alpha forced to 255. -/
theorem blend_glyph_sample_spec (img : Img) (g : GlyphInfo) (x y : ℤ)
    (color : Rgba) (row col : ℕ) (X Y : ℤ)
    (hw : 0 < g.width) (hc : col < g.width) (hr : row < g.height)
    (hlen : g.data.length = g.width * g.height)
    (hX : X = x + g.bearing_x + (col : ℤ))
    (hY : Y = y - ((g.height : ℤ) + g.bearing_y) + (row : ℤ)) :
    ((0 ≤ X ∧ X < (img.width : ℤ) ∧ 0 ≤ Y ∧ Y < (img.height : ℤ) ∧
      g.data.getD (row * g.width + col) 0 ≠ 0) →
      (blend_glyph img g x y color).pix X Y =
        blend_alpha_pixel (img.pix X Y) color
          (g.data.getD (row * g.width + col) 0)) ∧
    (g.data.getD (row * g.width + col) 0 = 0 →
      (blend_glyph img g x y color).pix X Y = img.pix X Y) ∧
    (¬(0 ≤ X ∧ X < (img.width : ℤ) ∧ 0 ≤ Y ∧ Y < (img.height : ℤ)) →
      (blend_glyph img g x y color).pix X Y = img.pix X Y) ∧
    (∀ bg : Rgba, blend_alpha_pixel bg color 255 = color) ∧
    (∀ bg : Rgba, blend_alpha_pixel bg color 0 = bg) ∧
    (∀ (bg : Rgba) (cov : ℕ), 0 < cov → cov < 255 →
      blend_alpha_pixel bg color cov =
        { r := rustCastU8 (color.r * ((cov : ℚ) / 255) + bg.r * (1 - (cov : ℚ) / 255)),
          g := rustCastU8 (color.g * ((cov : ℚ) / 255) + bg.g * (1 - (cov : ℚ) / 255)),
          b := rustCastU8 (color.b * ((cov : ℚ) / 255) + bg.b * (1 - (cov : ℚ) / 255)),
          a := 255 }) := by
  subst hX
  subst hY
  have hk : row * g.width + col < g.data.length := by
    rw [hlen]
    calc row * g.width + col < row * g.width + g.width := by omega
    _ = (row + 1) * g.width := by ring
    _ ≤ g.height * g.width := Nat.mul_le_mul_right _ (Nat.succ_le_of_lt hr)
    _ = g.width * g.height := Nat.mul_comm _ _
  have hmod : (0 + (row * g.width + col)) % g.width = col := by
    rw [Nat.zero_add, Nat.add_comm (row * g.width) col, Nat.add_mul_mod_self_right]
    exact Nat.mod_eq_of_lt hc
  have hdiv : (0 + (row * g.width + col)) / g.width = row := by
    rw [Nat.zero_add, Nat.add_comm (row * g.width) col, Nat.add_mul_div_right _ _ hw]
    rw [Nat.div_eq_of_lt hc]
    omega
  refine ⟨?_, ?_, ?_, fun bg => rfl, fun bg => rfl, ?_⟩
  · rintro ⟨hb1, hb2, hb3, hb4, hnz⟩
    unfold blend_glyph
    exact blend_glyph_go_hit color (x + g.bearing_x)
      (y - ((g.height : ℤ) + g.bearing_y)) hw g.data 0 img
      (row * g.width + col) _ _ hk
      ⟨by rw [hmod], by rw [hdiv], hnz, hb1, hb2, hb3, hb4⟩
  · intro hz
    unfold blend_glyph
    apply blend_glyph_go_miss
    intro k2 hk2 hc2
    obtain ⟨h1, h2, hnz2, -, -, -, -⟩ := hc2
    have hm : (0 + k2) % g.width = col := by exact_mod_cast add_left_cancel h1
    have hd : (0 + k2) / g.width = row := by exact_mod_cast add_left_cancel h2
    have hkk : 0 + k2 = 0 + (row * g.width + col) :=
      pos_inj hw (hm.trans hmod.symm) (hd.trans hdiv.symm)
    rw [show k2 = row * g.width + col from by omega] at hnz2
    exact hnz2 hz
  · intro hnb
    unfold blend_glyph
    apply blend_glyph_go_miss
    intro k2 hk2 hc2
    obtain ⟨-, -, -, hb1, hb2, hb3, hb4⟩ := hc2
    exact hnb ⟨hb1, hb2, hb3, hb4⟩
  · intro bg cov h1 h2
    unfold blend_alpha_pixel
    rw [if_neg (by omega), if_neg (by omega)]

/-- Witness for the C4 theorem: a concrete 2-by-2 glyph with coverages
0, 255, 128, 0 blended onto a 4-by-4 surface. -/
theorem blend_glyph_sample_spec_witness :
    (0 < 2 ∧ 1 < 2 ∧ 0 < 2 ∧ ([0, 255, 128, 0] : List ℕ).length = 2 * 2) ∧
    ((0 ≤ (2 : ℤ) ∧ (2 : ℤ) < (4 : ℕ) ∧ 0 ≤ (1 : ℤ) ∧ (1 : ℤ) < (4 : ℕ) ∧
      ([0, 255, 128, 0] : List ℕ).getD (0 * 2 + 1) 0 ≠ 0) →
      (blend_glyph ⟨4, 4, fun _ _ => ⟨9, 9, 9, 9⟩⟩ ⟨[0, 255, 128, 0], 2, 2, 3/2, 0, 0⟩
          1 3 ⟨10, 20, 30, 255⟩).pix 2 1 =
        blend_alpha_pixel ((⟨4, 4, fun _ _ => ⟨9, 9, 9, 9⟩⟩ : Img).pix 2 1)
          ⟨10, 20, 30, 255⟩ (([0, 255, 128, 0] : List ℕ).getD (0 * 2 + 1) 0)) := by
  refine ⟨by decide, ?_⟩
  exact (blend_glyph_sample_spec ⟨4, 4, fun _ _ => ⟨9, 9, 9, 9⟩⟩
    ⟨[0, 255, 128, 0], 2, 2, 3/2, 0, 0⟩ 1 3 ⟨10, 20, 30, 255⟩ 0 1 2 1
    (by decide) (by decide) (by decide) (by decide) (by decide) (by decide)).1

lemma paintPixels_dims (inside : ℕ → ℕ → Bool) (x y : ℤ) (color : Rgba)
    (L : List (ℕ × ℕ)) :
    ∀ img : Img, (paintPixels inside x y color img L).width = img.width ∧
      (paintPixels inside x y color img L).height = img.height := by
  induction L with
  | nil => intro img; exact ⟨rfl, rfl⟩
  | cons q rest ih =>
    intro img
    rcases q with ⟨qx, qy⟩
    simp only [paintPixels]
    refine ⟨?_, ?_⟩
    · rw [(ih _).1]
      split_ifs <;> rfl
    · rw [(ih _).2]
      split_ifs <;> rfl

lemma paintPixels_pix_cases (inside : ℕ → ℕ → Bool) (x y : ℤ) (color : Rgba)
    (L : List (ℕ × ℕ)) :
    ∀ (img : Img) (X Y : ℤ),
      (paintPixels inside x y color img L).pix X Y = color ∨
      (paintPixels inside x y color img L).pix X Y = img.pix X Y := by
  induction L with
  | nil => intro img X Y; exact Or.inr rfl
  | cons q rest ih =>
    intro img X Y
    rcases q with ⟨qx, qy⟩
    simp only [paintPixels]
    rcases ih (if x + (qx : ℤ) < 0 ∨ y + (qy : ℤ) < 0 ∨ (img.width : ℤ) ≤ x + (qx : ℤ) ∨
        (img.height : ℤ) ≤ y + (qy : ℤ) then img
      else if inside qx qy then
        img.put (x + (qx : ℤ)) (y + (qy : ℤ)) color else img) X Y with h | h
    · exact Or.inl h
    · rw [h]
      split_ifs with h1 h2
      · exact Or.inr rfl
      · unfold Img.put
        dsimp only
        split_ifs with h3
        · exact Or.inl rfl
        · exact Or.inr rfl
      · exact Or.inr rfl

lemma paintPixels_hit (inside : ℕ → ℕ → Bool) (x y : ℤ) (color : Rgba)
    (L : List (ℕ × ℕ)) :
    ∀ (img : Img) (px py : ℕ), (px, py) ∈ L → inside px py = true →
      0 ≤ x + (px : ℤ) → 0 ≤ y + (py : ℤ) →
      x + (px : ℤ) < (img.width : ℤ) → y + (py : ℤ) < (img.height : ℤ) →
      (paintPixels inside x y color img L).pix (x + (px : ℤ)) (y + (py : ℤ)) = color := by
  induction L with
  | nil => intro img px py hmem; exact absurd hmem (by simp)
  | cons q rest ih =>
    intro img px py hmem hins hb1 hb2 hb3 hb4
    rcases q with ⟨qx, qy⟩
    simp only [paintPixels]
    have hdims : ∀ img2 : Img, img2.width = img.width → img2.height = img.height →
        (px, py) ∈ rest →
        (paintPixels inside x y color img2 rest).pix (x + (px : ℤ)) (y + (py : ℤ)) = color := by
      intro img2 hW hH hmem'
      exact ih img2 px py hmem' hins hb1 hb2 (hW ▸ hb3) (hH ▸ hb4)
    rcases List.mem_cons.mp hmem with heq | hmem'
    · obtain ⟨hpx, hpy⟩ := Prod.mk.injEq .. ▸ heq
      subst hpx
      subst hpy
      rw [if_neg (by push_neg; exact ⟨hb1, hb2, hb3, hb4⟩), if_pos hins]
      rcases paintPixels_pix_cases inside x y color rest
          (img.put (x + (px : ℤ)) (y + (py : ℤ)) color) (x + (px : ℤ)) (y + (py : ℤ)) with
        h | h
      · exact h
      · rw [h]
        unfold Img.put
        dsimp only
        rw [if_pos ⟨rfl, rfl⟩]
    · refine ?_
      split_ifs with h1 h2
      · exact hdims img rfl rfl hmem'
      · exact hdims _ rfl rfl hmem'
      · exact hdims img rfl rfl hmem'

lemma paintPixels_miss (inside : ℕ → ℕ → Bool) (x y : ℤ) (color : Rgba)
    (L : List (ℕ × ℕ)) :
    ∀ (img : Img) (X Y : ℤ),
      (∀ px py, (px, py) ∈ L → inside px py = true →
        ¬(X = x + (px : ℤ) ∧ Y = y + (py : ℤ) ∧ 0 ≤ X ∧ 0 ≤ Y ∧
          X < (img.width : ℤ) ∧ Y < (img.height : ℤ))) →
      (paintPixels inside x y color img L).pix X Y = img.pix X Y := by
  induction L with
  | nil => intro img X Y _; rfl
  | cons q rest ih =>
    intro img X Y hmiss
    rcases q with ⟨qx, qy⟩
    simp only [paintPixels]
    have hshift : ∀ img2 : Img, img2.width = img.width → img2.height = img.height →
        ∀ px py, (px, py) ∈ rest → inside px py = true →
        ¬(X = x + (px : ℤ) ∧ Y = y + (py : ℤ) ∧ 0 ≤ X ∧ 0 ≤ Y ∧
          X < (img2.width : ℤ) ∧ Y < (img2.height : ℤ)) := by
      intro img2 hW hH px py hmem' hins hc
      apply hmiss px py (List.mem_cons_of_mem _ hmem') hins
      rw [← hW, ← hH]
      exact hc
    split_ifs with h1 h2
    · exact ih img X Y (hshift img rfl rfl)
    · rw [ih (img.put (x + (qx : ℤ)) (y + (qy : ℤ)) color) X Y (hshift _ rfl rfl)]
      unfold Img.put
      dsimp only
      split_ifs with h3
      · exfalso
        obtain ⟨hX, hY⟩ := h3
        push_neg at h1
        obtain ⟨hb1, hb2, hb3, hb4⟩ := h1
        exact hmiss qx qy (List.mem_cons_self _ _) h2
          ⟨hX, hY, hX ▸ hb1, hY ▸ hb2, hX ▸ hb3, hY ▸ hb4⟩
      · rfl
    · exact ih img X Y (hshift img rfl rfl)

lemma mem_gridPixels {w h px py : ℕ} :
    (px, py) ∈ gridPixels w h ↔ px < w ∧ py < h := by
  simp only [gridPixels, List.mem_flatMap, List.mem_map, List.mem_range, Prod.mk.injEq]
  constructor
  · rintro ⟨b, hb, a, ha, h1, h2⟩
    subst h1
    subst h2
    exact ⟨ha, hb⟩
  · rintro ⟨h1, h2⟩
    exact ⟨py, h2, px, h1, rfl, rfl⟩

lemma cornerTest_quadrant (x y w h r : ℚ) (hrw : r ≤ w - r) (hrh : r ≤ h - r)
    (hx : x < r ∨ w - r < x) (hy : y < r ∨ h - r < y) :
    (cornerTest x y w h r
        [(r, r), (w - r, r), (r, h - r), (w - r, h - r)] = true) ↔
      specInsideRoundedRect x y w h r := by
  unfold specInsideRoundedRect
  rcases hx with hx | hx <;> rcases hy with hy | hy
  · -- top-left quadrant: x < r, y < r
    simp only [cornerTest]
    rw [if_pos (Or.inl ⟨le_of_lt hx, le_of_lt hy, trivial, trivial⟩),
      decide_eq_true_eq]
    constructor
    · intro hd
      exact Or.inr (Or.inr (Or.inl ⟨le_of_lt hx, le_of_lt hy, hd⟩))
    · rintro (⟨h1, h2⟩ | ⟨h1, h2⟩ | ⟨h1, h2, h3⟩ | ⟨h1, h2, h3⟩ | ⟨h1, h2, h3⟩ |
        ⟨h1, h2, h3⟩)
      · linarith
      · linarith
      · exact h3
      · linarith
      · linarith
      · linarith
  · -- bottom-left quadrant: x < r, h - r < y
    simp only [cornerTest]
    by_cases hH : r = h - r
    · rw [if_pos (Or.inr (Or.inr (Or.inl ⟨le_of_lt hx, le_of_lt hy, trivial, hH⟩))),
        decide_eq_true_eq]
      constructor
      · intro hd
        refine Or.inr (Or.inr (Or.inr (Or.inr (Or.inl
          ⟨le_of_lt hx, le_of_lt hy, ?_⟩))))
        rw [← hH]
        exact hd
      · rintro (⟨h1, h2⟩ | ⟨h1, h2⟩ | ⟨h1, h2, h3⟩ | ⟨h1, h2, h3⟩ | ⟨h1, h2, h3⟩ |
          ⟨h1, h2, h3⟩)
        · linarith
        · linarith
        · linarith
        · linarith
        · rw [← hH] at h3
          exact h3
        · linarith
    · rw [if_neg ?nbl1, if_neg ?nbl2,
        if_pos (Or.inr (Or.inr (Or.inl ⟨le_of_lt hx, le_of_lt hy, trivial, trivial⟩))),
        decide_eq_true_eq]
      case nbl1 =>
        rintro (⟨h1, h2, h3, h4⟩ | ⟨h1, h2, h3, h4⟩ | ⟨h1, h2, h3, h4⟩ |
          ⟨h1, h2, h3, h4⟩)
        · linarith
        · linarith
        · exact hH h4
        · linarith
      case nbl2 =>
        rintro (⟨h1, h2, h3, h4⟩ | ⟨h1, h2, h3, h4⟩ | ⟨h1, h2, h3, h4⟩ |
          ⟨h1, h2, h3, h4⟩)
        · linarith
        · linarith
        · exact hH h4
        · linarith
      constructor
      · intro hd
        exact Or.inr (Or.inr (Or.inr (Or.inr (Or.inl
          ⟨le_of_lt hx, le_of_lt hy, hd⟩))))
      · rintro (⟨h1, h2⟩ | ⟨h1, h2⟩ | ⟨h1, h2, h3⟩ | ⟨h1, h2, h3⟩ | ⟨h1, h2, h3⟩ |
          ⟨h1, h2, h3⟩)
        · linarith
        · linarith
        · linarith
        · linarith
        · exact h3
        · linarith
  · -- top-right quadrant: w - r < x, y < r
    simp only [cornerTest]
    by_cases hW : r = w - r
    · rw [if_pos (Or.inr (Or.inl ⟨le_of_lt hx, le_of_lt hy, hW, trivial⟩)),
        decide_eq_true_eq]
      constructor
      · intro hd
        refine Or.inr (Or.inr (Or.inr (Or.inl ⟨le_of_lt hx, le_of_lt hy, ?_⟩)))
        rw [← hW]
        exact hd
      · rintro (⟨h1, h2⟩ | ⟨h1, h2⟩ | ⟨h1, h2, h3⟩ | ⟨h1, h2, h3⟩ | ⟨h1, h2, h3⟩ |
          ⟨h1, h2, h3⟩)
        · linarith
        · linarith
        · linarith
        · rw [← hW] at h3
          exact h3
        · linarith
        · linarith
    · rw [if_neg ?ntr1,
        if_pos (Or.inr (Or.inl ⟨le_of_lt hx, le_of_lt hy, trivial, trivial⟩)),
        decide_eq_true_eq]
      case ntr1 =>
        rintro (⟨h1, h2, h3, h4⟩ | ⟨h1, h2, h3, h4⟩ | ⟨h1, h2, h3, h4⟩ |
          ⟨h1, h2, h3, h4⟩)
        · linarith
        · exact hW h3
        · linarith
        · linarith
      constructor
      · intro hd
        exact Or.inr (Or.inr (Or.inr (Or.inl ⟨le_of_lt hx, le_of_lt hy, hd⟩)))
      · rintro (⟨h1, h2⟩ | ⟨h1, h2⟩ | ⟨h1, h2, h3⟩ | ⟨h1, h2, h3⟩ | ⟨h1, h2, h3⟩ |
          ⟨h1, h2, h3⟩)
        · linarith
        · linarith
        · linarith
        · exact h3
        · linarith
        · linarith
  · -- bottom-right quadrant: w - r < x, h - r < y
    simp only [cornerTest]
    by_cases hW : r = w - r <;> by_cases hH : r = h - r
    · -- both corners coincide with (r, r)
      rw [if_pos (Or.inr (Or.inr (Or.inr ⟨le_of_lt hx, le_of_lt hy, hW, hH⟩))),
        decide_eq_true_eq]
      constructor
      · intro hd
        refine Or.inr (Or.inr (Or.inr (Or.inr (Or.inr
          ⟨le_of_lt hx, le_of_lt hy, ?_⟩))))
        rw [← hW, ← hH]
        exact hd
      · rintro (⟨h1, h2⟩ | ⟨h1, h2⟩ | ⟨h1, h2, h3⟩ | ⟨h1, h2, h3⟩ | ⟨h1, h2, h3⟩ |
          ⟨h1, h2, h3⟩)
        · linarith
        · linarith
        · linarith
        · linarith
        · linarith
        · rw [← hW, ← hH] at h3
          exact h3
    · -- w = 2r only: the walk stops at the bottom-left corner (r, h - r)
      rw [if_neg ?nbr1, if_neg ?nbr2,
        if_pos (Or.inr (Or.inr (Or.inr ⟨le_of_lt hx, le_of_lt hy, hW, trivial⟩))),
        decide_eq_true_eq]
      case nbr1 =>
        rintro (⟨h1, h2, h3, h4⟩ | ⟨h1, h2, h3, h4⟩ | ⟨h1, h2, h3, h4⟩ |
          ⟨h1, h2, h3, h4⟩)
        · linarith
        · linarith
        · linarith
        · exact hH h4
      case nbr2 =>
        rintro (⟨h1, h2, h3, h4⟩ | ⟨h1, h2, h3, h4⟩ | ⟨h1, h2, h3, h4⟩ |
          ⟨h1, h2, h3, h4⟩)
        · linarith
        · linarith
        · linarith
        · exact hH h4
      constructor
      · intro hd
        refine Or.inr (Or.inr (Or.inr (Or.inr (Or.inr
          ⟨le_of_lt hx, le_of_lt hy, ?_⟩))))
        rw [← hW]
        exact hd
      · rintro (⟨h1, h2⟩ | ⟨h1, h2⟩ | ⟨h1, h2, h3⟩ | ⟨h1, h2, h3⟩ | ⟨h1, h2, h3⟩ |
          ⟨h1, h2, h3⟩)
        · linarith
        · linarith
        · linarith
        · linarith
        · linarith
        · rw [← hW] at h3
          exact h3
    · -- h = 2r only: the walk stops at the top-right corner (w - r, r)
      rw [if_neg ?nbr3,
        if_pos (Or.inr (Or.inr (Or.inr ⟨le_of_lt hx, le_of_lt hy, trivial, hH⟩))),
        decide_eq_true_eq]
      case nbr3 =>
        rintro (⟨h1, h2, h3, h4⟩ | ⟨h1, h2, h3, h4⟩ | ⟨h1, h2, h3, h4⟩ |
          ⟨h1, h2, h3, h4⟩)
        · linarith
        · linarith
        · linarith
        · exact hW h3
      constructor
      · intro hd
        refine Or.inr (Or.inr (Or.inr (Or.inr (Or.inr
          ⟨le_of_lt hx, le_of_lt hy, ?_⟩))))
        rw [← hH]
        exact hd
      · rintro (⟨h1, h2⟩ | ⟨h1, h2⟩ | ⟨h1, h2, h3⟩ | ⟨h1, h2, h3⟩ | ⟨h1, h2, h3⟩ |
          ⟨h1, h2, h3⟩)
        · linarith
        · linarith
        · linarith
        · linarith
        · linarith
        · rw [← hH] at h3
          exact h3
    · -- no coincidence: the walk reaches the bottom-right corner itself
      rw [if_neg ?nbr4, if_neg ?nbr5, if_neg ?nbr6,
        if_pos (Or.inr (Or.inr (Or.inr
          ⟨le_of_lt hx, le_of_lt hy, trivial, trivial⟩))),
        decide_eq_true_eq]
      case nbr4 =>
        rintro (⟨h1, h2, h3, h4⟩ | ⟨h1, h2, h3, h4⟩ | ⟨h1, h2, h3, h4⟩ |
          ⟨h1, h2, h3, h4⟩)
        · linarith
        · linarith
        · linarith
        · exact hW h3
      case nbr5 =>
        rintro (⟨h1, h2, h3, h4⟩ | ⟨h1, h2, h3, h4⟩ | ⟨h1, h2, h3, h4⟩ |
          ⟨h1, h2, h3, h4⟩)
        · linarith
        · linarith
        · linarith
        · exact hH h4
      case nbr6 =>
        rintro (⟨h1, h2, h3, h4⟩ | ⟨h1, h2, h3, h4⟩ | ⟨h1, h2, h3, h4⟩ |
          ⟨h1, h2, h3, h4⟩)
        · linarith
        · linarith
        · linarith
        · exact hW h3
      constructor
      · intro hd
        exact Or.inr (Or.inr (Or.inr (Or.inr (Or.inr
          ⟨le_of_lt hx, le_of_lt hy, hd⟩))))
      · rintro (⟨h1, h2⟩ | ⟨h1, h2⟩ | ⟨h1, h2, h3⟩ | ⟨h1, h2, h3⟩ | ⟨h1, h2, h3⟩ |
          ⟨h1, h2, h3⟩)
        · linarith
        · linarith
        · linarith
        · linarith
        · linarith
        · exact h3

lemma is_inside_iff_spec (x y w h r : ℚ) (hrw : r ≤ w / 2) (hrh : r ≤ h / 2) :
    (is_inside_rounded_rect x y w h r = true) ↔ specInsideRoundedRect x y w h r := by
  have hrw' : r ≤ w - r := by linarith
  have hrh' : r ≤ h - r := by linarith
  unfold is_inside_rounded_rect
  by_cases h1 : r ≤ x ∧ x ≤ w - r
  · rw [if_pos h1]
    constructor
    · intro _
      exact Or.inl h1
    · intro _
      rfl
  · rw [if_neg h1]
    by_cases h2 : r ≤ y ∧ y ≤ h - r
    · rw [if_pos h2]
      constructor
      · intro _
        exact Or.inr (Or.inl h2)
      · intro _
        rfl
    · rw [if_neg h2]
      refine cornerTest_quadrant x y w h r hrw' hrh' ?_ ?_
      · by_cases hxr : x < r
        · exact Or.inl hxr
        · push_neg at h1 hxr
          exact Or.inr (h1 hxr)
      · by_cases hyr : y < r
        · exact Or.inl hyr
        · push_neg at h2 hyr
          exact Or.inr (h2 hyr)

lemma min_cast_div_le_half_left (w h : ℕ) :
    (((min w h : ℕ) : ℚ) / 2) ≤ (w : ℚ) / 2 := by
  have : ((min w h : ℕ) : ℚ) ≤ (w : ℚ) := by
    exact_mod_cast Nat.min_le_left w h
  linarith

lemma min_cast_div_le_half_right (w h : ℕ) :
    (((min w h : ℕ) : ℚ) / 2) ≤ (h : ℚ) / 2 := by
  have : ((min w h : ℕ) : ℚ) ≤ (h : ℚ) := by
    exact_mod_cast Nat.min_le_right w h
  linarith

/-- Claim C3: in the rounded-rectangle fill the effective radius is the
minimum of the export-scaled requested radius and half of
min(width, height); a pixel offset inside the rectangle is painted iff it
lies in the horizontal strip, or in the vertical strip, or in one corner
quadrant within squared distance radius² of that corner's arc center;
pixels outside the image bounds are silently skipped (left unchanged, no
error). -/
theorem draw_rounded_rect_pixel_spec (cfg : RenderConfig) (img : Img)
    (x y : ℤ) (width height : ℕ) (radius : ℚ) (color : Rgba)
    (px py : ℕ) (X Y : ℤ)
    (hpx : px < width) (hpy : py < height)
    (hX : X = x + (px : ℤ)) (hY : Y = y + (py : ℤ)) :
    (draw_rounded_rect cfg img x y width height radius color).pix X Y =
      if (0 ≤ X ∧ 0 ≤ Y ∧ X < (img.width : ℤ) ∧ Y < (img.height : ℤ)) ∧
          specInsideRoundedRect px py width height
            (min (((min width height : ℕ) : ℚ) / 2) (radius * cfg.export_size))
      then color else img.pix X Y := by
  subst hX
  subst hY
  set r_eff : ℚ := min (((min width height : ℕ) : ℚ) / 2) (radius * cfg.export_size)
    with hreff
  have hw2 : r_eff ≤ (width : ℚ) / 2 :=
    le_trans (min_le_left _ _) (min_cast_div_le_half_left width height)
  have hh2 : r_eff ≤ (height : ℚ) / 2 :=
    le_trans (min_le_left _ _) (min_cast_div_le_half_right width height)
  have hiff := is_inside_iff_spec (px : ℚ) (py : ℚ) (width : ℚ) (height : ℚ)
    r_eff hw2 hh2
  unfold draw_rounded_rect
  dsimp only
  rw [← hreff]
  split_ifs with hcond
  · obtain ⟨⟨hb1, hb2, hb3, hb4⟩, hins⟩ := hcond
    exact paintPixels_hit _ x y color (gridPixels width height) img px py
      (mem_gridPixels.mpr ⟨hpx, hpy⟩) (hiff.mpr hins) hb1 hb2 hb3 hb4
  · apply paintPixels_miss
    intro qx qy hqmem hqins hc
    obtain ⟨hqX, hqY, hb1, hb2, hb3, hb4⟩ := hc
    have hqx : qx = px := by
      have : (qx : ℤ) = (px : ℤ) := by omega
      exact_mod_cast this
    have hqy : qy = py := by
      have : (qy : ℤ) = (py : ℤ) := by omega
      exact_mod_cast this
    subst hqx
    subst hqy
    exact hcond ⟨⟨hb1, hb2, hb3, hb4⟩, hiff.mp hqins⟩

/-- Witness for the C3 theorem: a 6-by-6 rounded rectangle with requested
radius 2 drawn at the origin of a 10-by-10 surface, sampled at the corner
offset (0, 0). -/
theorem draw_rounded_rect_pixel_spec_witness :
    (0 : ℕ) < 6 ∧
    (draw_rounded_rect render_config_default ⟨10, 10, fun _ _ => ⟨7, 7, 7, 255⟩⟩
        0 0 6 6 2 ⟨1, 2, 3, 255⟩).pix 0 0 =
      if ((0 : ℤ) ≤ 0 ∧ (0 : ℤ) ≤ 0 ∧ (0 : ℤ) < ((10 : ℕ) : ℤ) ∧
          (0 : ℤ) < ((10 : ℕ) : ℤ)) ∧
          specInsideRoundedRect 0 0 6 6
            (min (((min 6 6 : ℕ) : ℚ) / 2) (2 * render_config_default.export_size))
      then ⟨1, 2, 3, 255⟩ else (⟨10, 10, fun _ _ => ⟨7, 7, 7, 255⟩⟩ : Img).pix 0 0 := by
  refine ⟨by decide, ?_⟩
  have h := draw_rounded_rect_pixel_spec render_config_default
    ⟨10, 10, fun _ _ => ⟨7, 7, 7, 255⟩⟩ 0 0 6 6 2 ⟨1, 2, 3, 255⟩ 0 0 0 0
    (by decide) (by decide) (by decide) (by decide)
  simpa using h

lemma rustCastU8_mono {q1 q2 : ℚ} (h : q1 ≤ q2) : rustCastU8 q1 ≤ rustCastU8 q2 := by
  unfold rustCastU8
  split_ifs with h1 h2 h2
  · exact le_refl 0
  · exact Nat.zero_le _
  · exact absurd (le_trans h h2) h1
  · exact min_le_min (Int.toNat_le_toNat (Int.floor_le_floor h)) (le_refl 255)

lemma rustCastU8_nat (n : ℕ) (h : n ≤ 255) : rustCastU8 (n : ℚ) = n := by
  unfold rustCastU8
  split_ifs with h1
  · have : n = 0 := by exact_mod_cast le_antisymm (by exact_mod_cast h1) (Nat.zero_le n)
    omega
  · rw [Int.floor_natCast, Int.toNat_natCast]
    omega

lemma clampQ_mono {t1 t2 lo hi : ℚ} (h : t1 ≤ t2) : clampQ t1 lo hi ≤ clampQ t2 lo hi :=
  max_le_max (le_refl lo) (min_le_min h (le_refl hi))

lemma clampQ_zero_one_mem (t : ℚ) : 0 ≤ clampQ t 0 1 ∧ clampQ t 0 1 ≤ 1 := by
  unfold clampQ
  constructor
  · exact le_max_left 0 _
  · rcases le_total t 1 with h | h
    · rcases le_total t 0 with h0 | h0
      · rw [max_eq_left (by simpa [min_eq_left h] using h0)]
        norm_num
      · rw [max_eq_right (le_min h0 (by norm_num))]
        exact min_le_right t 1
    · rw [min_eq_right h]
      norm_num

lemma lerp_channel_mono_le (a b : ℕ) {t1 t2 : ℚ} (ht : t1 ≤ t2) (hab : a ≤ b) :
    rustCastU8 ((a : ℚ) * (1 - clampQ t1 0 1) + (b : ℚ) * clampQ t1 0 1) ≤
      rustCastU8 ((a : ℚ) * (1 - clampQ t2 0 1) + (b : ℚ) * clampQ t2 0 1) := by
  apply rustCastU8_mono
  have hc := @clampQ_mono _ _ 0 1 ht
  have hba : (0 : ℚ) ≤ (b : ℚ) - (a : ℚ) := by
    have : (a : ℚ) ≤ (b : ℚ) := by exact_mod_cast hab
    linarith
  nlinarith [hc, hba]

lemma lerp_channel_mono_ge (a b : ℕ) {t1 t2 : ℚ} (ht : t1 ≤ t2) (hab : b ≤ a) :
    rustCastU8 ((a : ℚ) * (1 - clampQ t2 0 1) + (b : ℚ) * clampQ t2 0 1) ≤
      rustCastU8 ((a : ℚ) * (1 - clampQ t1 0 1) + (b : ℚ) * clampQ t1 0 1) := by
  apply rustCastU8_mono
  have hc := @clampQ_mono _ _ 0 1 ht
  have hba : (0 : ℚ) ≤ (a : ℚ) - (b : ℚ) := by
    have : (b : ℚ) ≤ (a : ℚ) := by exact_mod_cast hab
    linarith
  nlinarith [hc, hba]

/-- Claim C8: for the horizontal-linear gradient field (noise disabled), the
pixel at x = 0 is exactly color1 with alpha 255, and each channel of the
interpolated color is monotonic in x along a row — non-decreasing when that
channel of color2 is at least color1's, non-increasing otherwise. -/
theorem horizontal_gradient_spec (w : ℕ) (c1 c2 : Rgba) (hw : 0 < w)
    (h1r : c1.r ≤ 255) (h1g : c1.g ≤ 255) (h1b : c1.b ≤ 255) :
    linear_gradient_horizontal 0 w c1 c2 = ⟨c1.r, c1.g, c1.b, 255⟩ ∧
    (∀ x1 x2 : ℕ, x1 ≤ x2 →
      ((c1.r ≤ c2.r →
        (linear_gradient_horizontal x1 w c1 c2).r ≤
          (linear_gradient_horizontal x2 w c1 c2).r) ∧
       (c2.r ≤ c1.r →
        (linear_gradient_horizontal x2 w c1 c2).r ≤
          (linear_gradient_horizontal x1 w c1 c2).r)) ∧
      ((c1.g ≤ c2.g →
        (linear_gradient_horizontal x1 w c1 c2).g ≤
          (linear_gradient_horizontal x2 w c1 c2).g) ∧
       (c2.g ≤ c1.g →
        (linear_gradient_horizontal x2 w c1 c2).g ≤
          (linear_gradient_horizontal x1 w c1 c2).g)) ∧
      ((c1.b ≤ c2.b →
        (linear_gradient_horizontal x1 w c1 c2).b ≤
          (linear_gradient_horizontal x2 w c1 c2).b) ∧
       (c2.b ≤ c1.b →
        (linear_gradient_horizontal x2 w c1 c2).b ≤
          (linear_gradient_horizontal x1 w c1 c2).b))) := by
  constructor
  · unfold linear_gradient_horizontal interpolate_color clampQ
    have h0 : ((0 : ℕ) : ℚ) / (w : ℚ) = 0 := by simp
    rw [h0]
    have hm : max 0 (min (0 : ℚ) 1) = 0 := by norm_num
    rw [hm]
    simp only [sub_zero, mul_one, mul_zero, add_zero]
    rw [rustCastU8_nat c1.r h1r, rustCastU8_nat c1.g h1g, rustCastU8_nat c1.b h1b]
  · intro x1 x2 hx
    have hwq : (0 : ℚ) < (w : ℚ) := by exact_mod_cast hw
    have hx12 : (x1 : ℚ) ≤ (x2 : ℚ) := by exact_mod_cast hx
    have ht : (x1 : ℚ) / (w : ℚ) ≤ (x2 : ℚ) / (w : ℚ) := by gcongr
    unfold linear_gradient_horizontal interpolate_color
    dsimp only
    exact ⟨⟨fun h => lerp_channel_mono_le c1.r c2.r ht h,
            fun h => lerp_channel_mono_ge c1.r c2.r ht h⟩,
           ⟨fun h => lerp_channel_mono_le c1.g c2.g ht h,
            fun h => lerp_channel_mono_ge c1.g c2.g ht h⟩,
           ⟨fun h => lerp_channel_mono_le c1.b c2.b ht h,
            fun h => lerp_channel_mono_ge c1.b c2.b ht h⟩⟩

/-- Witness for the C8 theorem at a concrete width and color pair. -/
theorem horizontal_gradient_spec_witness :
    ((0 : ℕ) < 4 ∧ (10 : ℕ) ≤ 255 ∧ (20 : ℕ) ≤ 255 ∧ (30 : ℕ) ≤ 255) ∧
    linear_gradient_horizontal 0 4 ⟨10, 20, 30, 255⟩ ⟨5, 200, 30, 255⟩ =
      ⟨10, 20, 30, 255⟩ :=
  ⟨by decide,
    (horizontal_gradient_spec 4 ⟨10, 20, 30, 255⟩ ⟨5, 200, 30, 255⟩
      (by decide) (by decide) (by decide) (by decide)).1⟩

lemma draw_circle_dims {img : Img} {x y radius : ℤ} {hex : List ℕ} {img2 : Img}
    (h : draw_circle img x y radius hex = some (.ok img2)) :
    img2.width = img.width ∧ img2.height = img.height := by
  unfold draw_circle at h
  cases hc : rgba_from_hex hex with
  | none => rw [hc] at h; cases h
  | some r =>
    cases r with
    | error e => rw [hc] at h; cases h
    | ok color =>
      rw [hc] at h
      cases h
      exact ⟨rfl, rfl⟩

lemma blend_glyph_dims (img : Img) (g : GlyphInfo) (x y : ℤ) (color : Rgba) :
    (blend_glyph img g x y color).width = img.width ∧
    (blend_glyph img g x y color).height = img.height := by
  unfold blend_glyph
  exact blend_glyph_go_dims _ _ _ _ _ _ _

lemma draw_text_go_dims (self : SnippetRenderer) (y : ℤ) (color : Rgba)
    (chars : List Char) :
    ∀ (img : Img) (cx : ℤ),
      (draw_text_go self y color img chars cx).1.width = img.width ∧
      (draw_text_go self y color img chars cx).1.height = img.height := by
  induction chars with
  | nil => intro img cx; exact ⟨rfl, rfl⟩
  | cons ch rest ih =>
    intro img cx
    simp only [draw_text_go]
    split_ifs with h
    · exact ih img cx
    · obtain ⟨h1, h2⟩ := ih (blend_glyph img (self.font_manager.render_glyph ch)
        cx y color) (cx + rustCastI32 (self.font_manager.render_glyph ch).advance_width)
      obtain ⟨b1, b2⟩ := blend_glyph_dims img (self.font_manager.render_glyph ch)
        cx y color
      exact ⟨h1.trans b1, h2.trans b2⟩

lemma draw_text_dims (self : SnippetRenderer) (img : Img) (text : String)
    (x y : ℕ) (color : Rgba) :
    (draw_text self img text x y color).1.width = img.width ∧
    (draw_text self img text x y color).1.height = img.height := by
  unfold draw_text
  exact draw_text_go_dims self (y : ℤ) color text.data img (x : ℤ)

lemma draw_tokens_dims (self : SnippetRenderer) (y : ℕ)
    (tokens : List HighlightedToken) :
    ∀ (img : Img) (x : ℕ) (img2 : Img) (x2 : ℕ),
      draw_tokens self y img tokens x = some (.ok (img2, x2)) →
      img2.width = img.width ∧ img2.height = img.height := by
  induction tokens with
  | nil =>
    intro img x img2 x2 h
    simp only [draw_tokens] at h
    cases h
    exact ⟨rfl, rfl⟩
  | cons token rest ih =>
    intro img x img2 x2 h
    simp only [draw_tokens] at h
    cases hc : rgba_from_hex (utf8Bytes token.color.hex) with
    | none => rw [hc] at h; cases h
    | some r =>
      cases r with
      | error e => rw [hc] at h; cases h
      | ok token_color =>
        rw [hc] at h
        obtain ⟨w1, h1⟩ := ih _ _ _ _ h
        obtain ⟨w2, h2⟩ := draw_text_dims self img token.text x y token_color
        exact ⟨w1.trans w2, h1.trans h2⟩

lemma draw_code_lines_dims (self : SnippetRenderer)
    (slh sy ox sp : ℕ) (lines : List HighlightedLine) :
    ∀ (img : Img) (li : ℕ) (img2 : Img),
      draw_code_lines self slh sy ox sp img lines li = some (.ok img2) →
      img2.width = img.width ∧ img2.height = img.height := by
  induction lines with
  | nil =>
    intro img li img2 h
    simp only [draw_code_lines] at h
    cases h
    exact ⟨rfl, rfl⟩
  | cons line rest ih =>
    intro img li img2 h
    simp only [draw_code_lines] at h
    by_cases hln : self.config.line_numbers
    · rw [if_pos hln] at h
      cases hc : rgba_from_hex (utf8Bytes self.theme.comment.hex) with
      | none => rw [hc] at h; cases h
      | some r =>
        cases r with
        | error e => rw [hc] at h; cases h
        | ok line_num_color =>
          rw [hc] at h
          dsimp only at h
          cases ht : draw_tokens self (sy + li * slh)
              (draw_text self img (gutter_string li) (ox + sp) (sy + li * slh)
                line_num_color).1 line.tokens
              (ox + sp + (draw_text self img (gutter_string li) (ox + sp)
                (sy + li * slh) line_num_color).2 +
                rustCastU32 (10 * self.config.export_size)) with
          | none => rw [ht] at h; cases h
          | some r2 =>
            cases r2 with
            | error e => rw [ht] at h; cases h
            | ok p =>
              rw [ht] at h
              obtain ⟨w1, h1⟩ := ih _ _ _ h
              obtain ⟨w2, h2⟩ := draw_tokens_dims self _ _ _ _ _ _ ht
              obtain ⟨w3, h3⟩ := draw_text_dims self img (gutter_string li)
                (ox + sp) (sy + li * slh) line_num_color
              exact ⟨(w1.trans w2).trans w3, (h1.trans h2).trans h3⟩
    · rw [if_neg hln] at h
      dsimp only at h
      cases ht : draw_tokens self (sy + li * slh) img line.tokens (ox + sp) with
      | none => rw [ht] at h; cases h
      | some r2 =>
        cases r2 with
        | error e => rw [ht] at h; cases h
        | ok p =>
          rw [ht] at h
          obtain ⟨w1, h1⟩ := ih _ _ _ h
          obtain ⟨w2, h2⟩ := draw_tokens_dims self _ _ _ _ _ _ ht
          exact ⟨w1.trans w2, h1.trans h2⟩

lemma draw_code_content_dims {self : SnippetRenderer} {img : Img}
    {lines : List HighlightedLine} {lh ox oy : ℕ} {img2 : Img}
    (h : draw_code_content self img lines lh ox oy = some (.ok img2)) :
    img2.width = img.width ∧ img2.height = img.height := by
  unfold draw_code_content at h
  exact draw_code_lines_dims self _ _ _ _ lines img 0 img2 h

lemma draw_rounded_rect_dims (cfg : RenderConfig) (img : Img) (x y : ℤ)
    (w h : ℕ) (radius : ℚ) (color : Rgba) :
    (draw_rounded_rect cfg img x y w h radius color).width = img.width ∧
    (draw_rounded_rect cfg img x y w h radius color).height = img.height := by
  unfold draw_rounded_rect
  exact paintPixels_dims _ _ _ _ _ _

lemma draw_rounded_rect_top_only_dims (cfg : RenderConfig) (img : Img)
    (x y : ℤ) (w h : ℕ) (radius : ℚ) (color : Rgba) :
    (draw_rounded_rect_top_only cfg img x y w h radius color).width = img.width ∧
    (draw_rounded_rect_top_only cfg img x y w h radius color).height = img.height := by
  unfold draw_rounded_rect_top_only
  exact paintPixels_dims _ _ _ _ _ _

lemma draw_window_frame_dims {self : SnippetRenderer} {img : Img}
    {w h pad ox oy : ℕ} {img2 : Img}
    (hf : draw_window_frame self img w h pad ox oy = some (.ok img2)) :
    img2.width = img.width ∧ img2.height = img.height := by
  unfold draw_window_frame at hf
  cases hd : darken_color (utf8Bytes self.theme.background.hex) (1 / 10) with
  | none => rw [hd] at hf; cases hf
  | some r =>
    cases r with
    | error e => rw [hd] at hf; cases hf
    | ok title_bar_color =>
      rw [hd] at hf
      dsimp only at hf
      cases hc1 : draw_circle
          (draw_rounded_rect_top_only self.config img (ox : ℤ) (oy : ℤ) w
            (rustCastU32 (40 * self.config.export_size)) self.config.border_radius
            title_bar_color)
          ((ox : ℤ) + ((pad / 2 : ℕ) : ℤ))
          ((oy : ℤ) + ((rustCastU32 (40 * self.config.export_size) / 2 : ℕ) : ℤ))
          (rustCastI32 (6 * self.config.export_size)) (utf8Bytes "#ff5f56") with
      | none => rw [hc1] at hf; cases hf
      | some r1 =>
        cases r1 with
        | error e => rw [hc1] at hf; cases hf
        | ok i2 =>
          rw [hc1] at hf
          dsimp only at hf
          cases hc2 : draw_circle i2
              ((ox : ℤ) + ((pad / 2 : ℕ) : ℤ) + rustCastI32 (20 * self.config.export_size))
              ((oy : ℤ) + ((rustCastU32 (40 * self.config.export_size) / 2 : ℕ) : ℤ))
              (rustCastI32 (6 * self.config.export_size)) (utf8Bytes "#ffbd2e") with
          | none => rw [hc2] at hf; cases hf
          | some r2 =>
            cases r2 with
            | error e => rw [hc2] at hf; cases hf
            | ok i3 =>
              rw [hc2] at hf
              dsimp only at hf
              cases hc3 : draw_circle i3
                  ((ox : ℤ) + ((pad / 2 : ℕ) : ℤ) +
                    rustCastI32 (20 * self.config.export_size) * 2)
                  ((oy : ℤ) + ((rustCastU32 (40 * self.config.export_size) / 2 : ℕ) : ℤ))
                  (rustCastI32 (6 * self.config.export_size)) (utf8Bytes "#27ca3f") with
              | none => rw [hc3] at hf; cases hf
              | some r3 =>
                cases r3 with
                | error e => rw [hc3] at hf; cases hf
                | ok i4 =>
                  rw [hc3] at hf
                  cases hf
                  obtain ⟨a1, a2⟩ := draw_circle_dims hc3
                  obtain ⟨b1, b2⟩ := draw_circle_dims hc2
                  obtain ⟨c1, c2⟩ := draw_circle_dims hc1
                  obtain ⟨d1, d2⟩ := draw_rounded_rect_top_only_dims self.config img
                    (ox : ℤ) (oy : ℤ) w (rustCastU32 (40 * self.config.export_size))
                    self.config.border_radius title_bar_color
                  exact ⟨((a1.trans b1).trans c1).trans d1,
                    ((a2.trans b2).trans c2).trans d2⟩

lemma draw_gradient_backdrop_dims {self : SnippetRenderer} {rng : ℕ → ℚ}
    {img : Img} {w h : ℕ} {img2 : Img}
    (hg : draw_gradient_backdrop self rng img w h = some img2) :
    img2.width = img.width ∧ img2.height = img.height := by
  unfold draw_gradient_backdrop at hg
  cases h1 : generate_random_gradient_color self (rng 0) (rng 1) (rng 2) with
  | none => rw [h1] at hg; cases hg
  | some c1 =>
    cases h2 : generate_random_gradient_color self (rng 3) (rng 4) (rng 5) with
    | none => rw [h1, h2] at hg; cases hg
    | some c2 =>
      rw [h1, h2] at hg
      cases hg
      exact ⟨rfl, rfl⟩

lemma render_snippet_dims {self : SnippetRenderer} {rng : ℕ → ℚ}
    {code language : String} {img : Img}
    (hr : render_snippet self rng code language = some (.ok img)) :
    img.width = self.config.get_actual_width +
        self.config.get_scaled_panel_padding * 2 ∧
    img.height = self.config.get_actual_height
        (panel_height_calc ((self.highlighter code language self.theme).length % 2 ^ 32)
          (rustCastU32 ((self.font_manager.get_line_height : ℚ) *
            self.config.line_height))
          self.config.padding self.config.window_controls) +
      self.config.get_scaled_panel_padding * 2 := by
  unfold render_snippet at hr
  dsimp only at hr
  split at hr
  · cases hr
  · cases hr
  · rename_i image1 hb
    -- the backdrop preserves the freshly allocated dimensions
    have hdims1 : image1.width = self.config.get_actual_width +
        self.config.get_scaled_panel_padding * 2 ∧
        image1.height = self.config.get_actual_height
          (panel_height_calc ((self.highlighter code language self.theme).length % 2 ^ 32)
            (rustCastU32 ((self.font_manager.get_line_height : ℚ) *
              self.config.line_height))
            self.config.padding self.config.window_controls) +
          self.config.get_scaled_panel_padding * 2 := by
      split at hb
      · split at hb
        · cases hb
        · rename_i i2 hg
          cases hb
          exact draw_gradient_backdrop_dims hg
      · split at hb
        · cases hb
        · cases hb
        · cases hb
          exact ⟨rfl, rfl⟩
    split at hr
    · cases hr
    · cases hr
    · rename_i panel_bg hx
      split at hr
      · cases hr
      · cases hr
      · rename_i image3 hf
        obtain ⟨hw4, hh4⟩ := draw_code_content_dims hr
        have hdims3 : image3.width = image1.width ∧
            image3.height = image1.height := by
          split at hf
          · obtain ⟨a1, a2⟩ := draw_window_frame_dims hf
            obtain ⟨b1, b2⟩ := draw_rounded_rect_dims self.config image1
              (self.config.get_scaled_panel_padding : ℤ)
              (self.config.get_scaled_panel_padding : ℤ)
              self.config.get_actual_width _ self.config.border_radius panel_bg
            exact ⟨a1.trans b1, a2.trans b2⟩
          · cases hf
            exact draw_rounded_rect_dims self.config image1
              (self.config.get_scaled_panel_padding : ℤ)
              (self.config.get_scaled_panel_padding : ℤ)
              self.config.get_actual_width _ self.config.border_radius panel_bg
        exact ⟨(hw4.trans hdims3.1).trans hdims1.1,
          (hh4.trans hdims3.2).trans hdims1.2⟩

lemma rustCastU32_natCast (n : ℕ) : rustCastU32 (n : ℚ) = min n (2 ^ 32 - 1) := by
  unfold rustCastU32
  split_ifs with h
  · have hn : n = 0 := by
      exact_mod_cast le_antisymm (by exact_mod_cast h) (Nat.zero_le n)
    subst hn
    simp
  · rw [Int.floor_natCast, Int.toNat_natCast]

lemma render_default_cfg_width (self : SnippetRenderer) (rng : ℕ → ℚ)
    (code language : String) (img : Img)
    (hcfg : self.config = render_config_default)
    (hr : render_snippet self rng code language = some (.ok img)) :
    img.width = 2720 := by
  have h := (render_snippet_dims hr).1
  rw [hcfg] at h
  rw [h]
  unfold RenderConfig.get_actual_width RenderConfig.get_scaled_panel_padding
    render_config_default
  dsimp only
  rw [show ((1200 : ℕ) : ℚ) * 2 = ((2400 : ℕ) : ℚ) by norm_num,
      show ((80 : ℕ) : ℚ) * 2 = ((160 : ℕ) : ℚ) by norm_num,
      rustCastU32_natCast, rustCastU32_natCast]
  norm_num

/-- Claim C1 counterexample: the end-to-end scenario (code "fn main() {}",
language "rust", theme dracula, default configuration) renders an image
2720 pixels wide, not 2640: 1200 times 2 plus 2 times 80 times 2 is 2720. -/
theorem render_default_width_not_2640 :
    get_theme "dracula" = some dracula_test_renderer.theme ∧
    dracula_test_renderer.config = render_config_default ∧
    ∃ img : Img,
      render_snippet dracula_test_renderer (fun _ => 0) "fn main() {}" "rust" =
        some (.ok img) ∧ img.width = 2720 ∧ img.width ≠ 2640 := by
  refine ⟨by decide, rfl, _, rfl, ?_, ?_⟩
  · exact render_default_cfg_width dracula_test_renderer (fun _ => 0)
      "fn main() {}" "rust" _ rfl rfl
  · rw [render_default_cfg_width dracula_test_renderer (fun _ => 0)
      "fn main() {}" "rust" _ rfl rfl]
    decide

/-- Claim C1 (amended): for input code "fn main() {}", language "rust",
theme "dracula" and the default configuration, `render_snippet` produces an
image whose pixel width equals 2720 — the configured width (1200) plus
twice the panel padding (2 times 80), times the export scale (2). -/
theorem render_default_scenario_width (t : Theme)
    (hl : String → String → Theme → List HighlightedLine) (fm : FontManager)
    (rng : ℕ → ℚ) (img : Img)
    (ht : get_theme "dracula" = some t)
    (hr : render_snippet ⟨t, render_config_default, hl, fm⟩ rng
      "fn main() {}" "rust" = some (.ok img)) :
    img.width = 2720 :=
  render_default_cfg_width ⟨t, render_config_default, hl, fm⟩ rng
    "fn main() {}" "rust" img rfl hr

/-- Witness for the amended C1 theorem with concrete highlighter, font and
stream inputs. -/
theorem render_default_scenario_width_witness :
    ∃ img : Img,
      get_theme "dracula" = some dracula_theme_value ∧
      render_snippet ⟨dracula_theme_value, render_config_default,
          fun _ _ _ => [], trivialFontModel⟩
        (fun _ => 0) "fn main() {}" "rust" = some (.ok img) ∧
      img.width = 2720 := by
  refine ⟨_, by decide, rfl, ?_⟩
  exact render_default_scenario_width dracula_theme_value (fun _ _ _ => [])
    trivialFontModel (fun _ => 0) _ (by decide) rfl

/-- Claim C9: with the randomness made explicit as an injectable stream
(the model of `thread_rng`, which the source creates and consumes only
inside `draw_gradient_backdrop`), two `render_snippet` calls with identical
code, language, theme, configuration and stream produce the identical
image — hence byte-identical output under any deterministic encoder
(`encode` stands for the external PNG plus base64 serialization); and when
the gradient backdrop is disabled the stream is never consumed, so the
output does not depend on it at all. -/
theorem render_snippet_deterministic (self : SnippetRenderer)
    (code language : String) (rng1 rng2 : ℕ → ℚ)
    (h : rng1 = rng2 ∨ self.config.gradient_backdrop = false) :
    ∀ encode : Img → List ℕ,
      (render_snippet self rng1 code language).map (Except.map encode) =
        (render_snippet self rng2 code language).map (Except.map encode) := by
  intro encode
  rcases h with h | h
  · rw [h]
  · unfold render_snippet
    rw [h]
    simp only [Bool.false_eq_true, if_false]

/-- Witness for the C9 theorem: a concrete renderer with the gradient
backdrop disabled and two different streams. -/
theorem render_snippet_deterministic_witness :
    (((fun _ : ℕ => (0 : ℚ)) = fun _ : ℕ => (1 : ℚ)) ∨
      (SnippetRenderer.mk dracula_theme_value
        { render_config_default with gradient_backdrop := false }
        (fun _ _ _ => []) trivialFontModel).config.gradient_backdrop = false) ∧
    ((render_snippet
        (SnippetRenderer.mk dracula_theme_value
          { render_config_default with gradient_backdrop := false }
          (fun _ _ _ => []) trivialFontModel)
        (fun _ => 0) "fn main() {}" "rust").map
          (Except.map fun i => [i.width, i.height]) =
      (render_snippet
        (SnippetRenderer.mk dracula_theme_value
          { render_config_default with gradient_backdrop := false }
          (fun _ _ _ => []) trivialFontModel)
        (fun _ => 1) "fn main() {}" "rust").map
          (Except.map fun i => [i.width, i.height])) :=
  ⟨Or.inr rfl,
    render_snippet_deterministic _ "fn main() {}" "rust" (fun _ => 0) (fun _ => 1)
      (Or.inr rfl) _⟩
